import Mathlib

/-!
Verification development for the fiber-optic datasheet extraction pipeline
(`main.py` / `config_parameters.py`).  The Python code is shallowly embedded:
strings are `List Char` / `String`, dicts are insertion-ordered association
lists, and the regular expressions used by the pipeline are embedded as an
explicit syntax tree `Re` together with a Python-style leftmost, greedy,
backtracking matcher `Re.run`.
-/

set_option maxRecDepth 10000

namespace DocIntel

/-! ## Python-flavoured character and string helpers (ASCII semantics).

The documents handled by the pipeline are ASCII apart from a handful of
symbol characters (`≤`, `µ`, `°`, `±`), none of which is cased or
whitespace, so ASCII case folding and the ASCII whitespace set `\t \n \v
\f \r ' '` faithfully model the Python `str` operations on the inputs
considered here. -/

def isSpacePy (c : Char) : Bool :=
  c = ' ' || c = '\t' || c = '\n' || c = '\x0d' || c = '\x0c' || c = '\x0b'

def isDigitPy (c : Char) : Bool := '0' ≤ c && c ≤ '9'

def isUpperAZ (c : Char) : Bool := 'A' ≤ c && c ≤ 'Z'

def isLowerAZ (c : Char) : Bool := 'a' ≤ c && c ≤ 'z'

def isAlphaAZ (c : Char) : Bool := isUpperAZ c || isLowerAZ c

/-- ASCII lower-casing, written as an explicit table so that facts such as
`isSpacePy (toLowerPy c) = isSpacePy c` follow by case splitting. -/
def toLowerPy (c : Char) : Char :=
  match c with
  | 'A' => 'a' | 'B' => 'b' | 'C' => 'c' | 'D' => 'd' | 'E' => 'e'
  | 'F' => 'f' | 'G' => 'g' | 'H' => 'h' | 'I' => 'i' | 'J' => 'j'
  | 'K' => 'k' | 'L' => 'l' | 'M' => 'm' | 'N' => 'n' | 'O' => 'o'
  | 'P' => 'p' | 'Q' => 'q' | 'R' => 'r' | 'S' => 's' | 'T' => 't'
  | 'U' => 'u' | 'V' => 'v' | 'W' => 'w' | 'X' => 'x' | 'Y' => 'y'
  | 'Z' => 'z'
  | c => c

def toUpperPy (c : Char) : Char :=
  match c with
  | 'a' => 'A' | 'b' => 'B' | 'c' => 'C' | 'd' => 'D' | 'e' => 'E'
  | 'f' => 'F' | 'g' => 'G' | 'h' => 'H' | 'i' => 'I' | 'j' => 'J'
  | 'k' => 'K' | 'l' => 'L' | 'm' => 'M' | 'n' => 'N' | 'o' => 'O'
  | 'p' => 'P' | 'q' => 'Q' | 'r' => 'R' | 's' => 'S' | 't' => 'T'
  | 'u' => 'U' | 'v' => 'V' | 'w' => 'W' | 'x' => 'X' | 'y' => 'Y'
  | 'z' => 'Z'
  | c => c

def lowerL (s : List Char) : List Char := s.map toLowerPy

def upperL (s : List Char) : List Char := s.map toUpperPy

def stripLeft : List Char → List Char
  | [] => []
  | c :: r => if isSpacePy c then stripLeft r else c :: r

/-- Python `str.strip()`. -/
def stripPy (s : List Char) : List Char :=
  ((stripLeft s).reverse |> stripLeft).reverse

/-- Python `int(...)` on a string of decimal digits. -/
def natOfDigits (s : List Char) : Nat :=
  s.foldl (fun n c => n * 10 + (c.toNat - 48)) 0

/-- Python `str.isdigit()` (ASCII). -/
def isdigitStr (s : List Char) : Bool := !s.isEmpty && s.all isDigitPy

/-- Leftmost maximal run of decimal digits, as matched by `re.search(r'(\d+)', s)`. -/
def firstDigitRun : List Char → Option (List Char)
  | [] => none
  | c :: r =>
    if isDigitPy c then some (c :: r.takeWhile isDigitPy) else firstDigitRun r

/-- Python substring test `needle in hay`. -/
def containsSub (hay needle : List Char) : Bool :=
  match hay with
  | [] => needle.isEmpty
  | c :: t => needle.isPrefixOf (c :: t) || containsSub t needle

/-- Python `str.split(sep)` for a one-character separator. -/
def splitOnChar (sep : Char) : List Char → List (List Char)
  | [] => [[]]
  | c :: r =>
    let rest := splitOnChar sep r
    if c = sep then [] :: rest
    else
      match rest with
      | [] => [[c]]
      | h :: t => (c :: h) :: t

def splitWsAux : List Char → List Char → List (List Char)
  | [], word => if word.isEmpty then [] else [word.reverse]
  | c :: r, word =>
    if isSpacePy c then
      (if word.isEmpty then id else (word.reverse :: ·)) (splitWsAux r [])
    else splitWsAux r (c :: word)

/-- Python `str.split()` (split on whitespace runs, dropping empties). -/
def splitWsPy (s : List Char) : List (List Char) := splitWsAux s []

def titleAux : Bool → List Char → List Char
  | _, [] => []
  | prevAlpha, c :: r =>
    let c' := if isAlphaAZ c then (if prevAlpha then toLowerPy c else toUpperPy c) else c
    c' :: titleAux (isAlphaAZ c) r

/-- Python `str.title()` (ASCII). -/
def titlePy (s : List Char) : List Char := titleAux false s

/-- Python `str.isupper()` (ASCII): at least one cased character and no
lower-case character. -/
def isupperStr (s : List Char) : Bool :=
  s.any isAlphaAZ && s.all (fun c => !isLowerAZ c)

/-- Python `str.replace(needle, repl)` (all occurrences, left to right);
the empty-needle corner case of Python is irrelevant here and returns `s`. -/
def replaceAll (s needle repl : List Char) : List Char :=
  match s with
  | [] => []
  | c :: t =>
    if needle.isEmpty then c :: t
    else if needle.isPrefixOf (c :: t) then
      repl ++ replaceAll (t.drop (needle.length - 1)) needle repl
    else
      c :: replaceAll t needle repl
termination_by s.length
decreasing_by
  · simp [List.length_drop]
    omega
  · simp

/-- Python `" ".join`-style joining with a separator string. -/
def joinSep (sep : List Char) : List (List Char) → List Char
  | [] => []
  | [x] => x
  | x :: y :: t => x ++ sep ++ joinSep sep (y :: t)

/-! ## A small regular-expression engine.

The patterns in `config_parameters.py` and `main.py` use only literals,
character classes, concatenation, alternation, greedy/lazy repetition,
optional parts, capturing groups, a lookahead, `^` and `$`.  `Re.run`
enumerates match alternatives in Python's backtracking priority order
(first alternative = the match Python's `re` engine commits to); each
driver (`searchRe`, `findAllRe`, `subAllRe`, `matchRe`) then takes the
leftmost, highest-priority match, which is exactly CPython's semantics.
A repetition body that consumes nothing does not iterate further, matching
CPython's empty-loop rule. -/

/-- Character classes of the patterns in the source. -/
inductive CC where
  | chars (l : List Char)
  | digit
  | space
  | alphaC
  | upper
  | lower
  | exceptC (l : List Char)
  | or2 (a b : CC)

def CC.mem : CC → Char → Bool
  | .chars l, c => l.contains c
  | .digit, c => isDigitPy c
  | .space, c => isSpacePy c
  | .alphaC, c => isAlphaAZ c
  | .upper, c => isUpperAZ c
  | .lower, c => isLowerAZ c
  | .exceptC l, c => !l.contains c
  | .or2 a b, c => a.mem c || b.mem c

inductive Re where
  | eps
  | lit (c : Char)
  | litCI (c : Char)
  | cl (c : CC)
  | cat (a b : Re)
  | alt (a b : Re)
  | star (a : Re) (lazy : Bool)
  | grp (i : Nat) (a : Re)
  | look (a : Re)
  | bos
  | eol

/-- Captured groups: group index paired with the captured characters; the
most recent capture of a group is the first entry with its index. -/
abbrev Caps := List (Nat × List Char)

def capGet (caps : Caps) (i : Nat) : Option (List Char) :=
  (caps.find? (fun p => p.1 = i)).map Prod.snd

theorem lexOfLeWf {n m a b : Nat} (h1 : n ≤ m) (h2 : a < b) :
    Prod.Lex (· < ·) (· < ·) (n, a) (m, b) := by
  rcases Nat.lt_or_ge n m with h | h
  · exact Prod.Lex.left _ _ h
  · have he : n = m := Nat.le_antisymm h1 h
    subst he
    exact Prod.Lex.right _ h2

/-- All ways `r` can match a prefix of `cs` (which starts at absolute
position `pos` of the subject), as `(consumed length, captures)` pairs in
backtracking priority order.  `fuel` only bounds the recursion depth so
that the function is structurally recursive and kernel-reducible; the
drivers below always pass `matchFuel`, which exceeds the longest possible
chain of recursive calls (each call strictly decreases the pair
(remaining length, pattern size) lexicographically, so chains are shorter
than `(length + 2) * (size + 1)`), hence the `fuel = 0` branch is never
reached from them. -/
def Re.run (fuel : Nat) (r : Re) (pos : Nat) (cs : List Char) (caps : Caps) :
    List (Nat × Caps) :=
  match fuel with
  | 0 => []
  | fuel + 1 =>
    match r with
    | .eps => [(0, caps)]
    | .lit c =>
      match cs with
      | [] => []
      | c' :: _ => if c' = c then [(1, caps)] else []
    | .litCI c =>
      match cs with
      | [] => []
      | c' :: _ => if toLowerPy c' = toLowerPy c then [(1, caps)] else []
    | .cl cc =>
      match cs with
      | [] => []
      | c' :: _ => if cc.mem c' then [(1, caps)] else []
    | .cat a b =>
      (Re.run fuel a pos cs caps).flatMap (fun nc =>
        (Re.run fuel b (pos + nc.1) (cs.drop nc.1) nc.2).map
          (fun mc => (nc.1 + mc.1, mc.2)))
    | .alt a b => Re.run fuel a pos cs caps ++ Re.run fuel b pos cs caps
    | .star a lz =>
      let stop : List (Nat × Caps) := [(0, caps)]
      let go := (Re.run fuel a pos cs caps).flatMap (fun nc =>
        if 0 < nc.1 ∧ nc.1 ≤ cs.length then
          (Re.run fuel (.star a lz) (pos + nc.1) (cs.drop nc.1) nc.2).map
            (fun mc => (nc.1 + mc.1, mc.2))
        else [])
      if lz then stop ++ go else go ++ stop
    | .grp i a =>
      (Re.run fuel a pos cs caps).map
        (fun nc => (nc.1, (i, cs.take nc.1) :: nc.2))
    | .look a => if (Re.run fuel a pos cs caps).isEmpty then [] else [(0, caps)]
    | .bos => if pos = 0 then [(0, caps)] else []
    | .eol => if cs = [] || cs = ['\n'] then [(0, caps)] else []

/-- Structural size of a pattern (for the fuel bound). -/
def Re.size : Re → Nat
  | .eps | .lit _ | .litCI _ | .cl _ | .bos | .eol => 1
  | .cat a b | .alt a b => a.size + b.size + 1
  | .star a _ => a.size + 1
  | .grp _ a => a.size + 1
  | .look a => a.size + 1

/-- Ample fuel for `Re.run` on subject `cs` (see `Re.run`). -/
def matchFuel (r : Re) (cs : List Char) : Nat :=
  (cs.length + 2) * (r.size + 1)

/-- `re.search` from position `pos`; result `(start, length, captures)`. -/
def searchFrom (r : Re) : List Char → Nat → Option (Nat × Nat × Caps)
  | [], pos =>
    (match Re.run (matchFuel r []) r pos [] [] with
     | nc :: _ => some (pos, nc.1, nc.2)
     | [] => none)
  | c :: t, pos =>
    (match Re.run (matchFuel r (c :: t)) r pos (c :: t) [] with
     | nc :: _ => some (pos, nc.1, nc.2)
     | [] => searchFrom r t (pos + 1))

def searchRe (r : Re) (cs : List Char) : Option (Nat × Nat × Caps) :=
  searchFrom r cs 0

/-- `re.finditer` / `re.findall`: leftmost non-overlapping matches.
`fuel` bounds the number of scan steps; the drivers pass `cs.length + 1`,
which is exact since every step advances at least one position. -/
def findAllFrom : Nat → Re → List Char → Nat → List (Nat × Nat × Caps)
  | 0, _, _, _ => []
  | fuel + 1, r, cs, pos =>
    match Re.run (matchFuel r cs) r pos cs [] with
    | nc :: _ =>
      if 0 < nc.1 ∧ nc.1 ≤ cs.length then
        (pos, nc.1, nc.2) :: findAllFrom fuel r (cs.drop nc.1) (pos + nc.1)
      else
        match cs with
        | [] => [(pos, nc.1, nc.2)]
        | _ :: t => (pos, nc.1, nc.2) :: findAllFrom fuel r t (pos + 1)
    | [] =>
      match cs with
      | [] => []
      | _ :: t => findAllFrom fuel r t (pos + 1)

def findAllRe (r : Re) (cs : List Char) : List (Nat × Nat × Caps) :=
  findAllFrom (cs.length + 1) r cs 0

/-- `re.sub(r, repl, cs)` (all occurrences); fuel as in `findAllFrom`. -/
def subAllFrom (fuel : Nat) (r : Re) (repl : List Char) (cs : List Char)
    (pos : Nat) : List Char :=
  match fuel with
  | 0 => cs
  | fuel + 1 =>
    match Re.run (matchFuel r cs) r pos cs [] with
    | nc :: _ =>
      if 0 < nc.1 ∧ nc.1 ≤ cs.length then
        repl ++ subAllFrom fuel r repl (cs.drop nc.1) (pos + nc.1)
      else
        match cs with
        | [] => repl
        | c :: t => repl ++ c :: subAllFrom fuel r repl t (pos + 1)
    | [] =>
      match cs with
      | [] => []
      | c :: t => c :: subAllFrom fuel r repl t (pos + 1)

def subAllRe (r : Re) (repl : List Char) (cs : List Char) : List Char :=
  subAllFrom (cs.length + 1) r repl cs 0

/-- `re.match` (anchored at the start). -/
def matchRe (r : Re) (cs : List Char) : Option (Nat × Caps) :=
  match Re.run (matchFuel r cs) r 0 cs [] with
  | nc :: _ => some nc
  | [] => none

/-- The characters of the subject covered by a `(start, length)` span. -/
def sliceAt (cs : List Char) (start len : Nat) : List Char :=
  (cs.drop start).take len

/-- Number of capturing groups defined in a pattern (`len(match.groups())`). -/
def Re.groupCount : Re → Nat
  | .eps | .lit _ | .litCI _ | .cl _ | .bos | .eol => 0
  | .cat a b | .alt a b => a.groupCount + b.groupCount
  | .star a _ => a.groupCount
  | .grp _ a => a.groupCount + 1
  | .look a => a.groupCount

/-- `true` only for classes that never match a whitespace character. -/
def CC.noWs : CC → Bool
  | .chars l => l.all (fun c => !isSpacePy c)
  | .digit => true
  | .space => false
  | .alphaC => true
  | .upper => true
  | .lower => true
  | .exceptC _ => false
  | .or2 a b => a.noWs && b.noWs

/-- A conservative syntactic check: `true` only if every match of the
pattern must consume at least one non-whitespace character (so the
pattern cannot match anywhere in an all-whitespace subject). -/
def Re.needsNonWs : Re → Bool
  | .eps => false
  | .lit c => !isSpacePy c
  | .litCI c => !isSpacePy c
  | .cl cc => cc.noWs
  | .cat a b => a.needsNonWs || b.needsNonWs
  | .alt a b => a.needsNonWs && b.needsNonWs
  | .star _ _ => false
  | .grp _ a => a.needsNonWs
  | .look _ => false
  | .bos => false
  | .eol => false

/-! ### Pattern-building helpers -/

def rcat (l : List Re) : Re := l.foldr .cat .eps

def rLit (s : String) : Re := rcat (s.data.map .lit)

def rLitCI (s : String) : Re := rcat (s.data.map .litCI)

/-- `\s*` -/
def rWsStar : Re := .star (.cl .space) false

/-- `\s+` -/
def rWsPlus : Re := .cat (.cl .space) rWsStar

/-- greedy `X+` -/
def rPlus (r : Re) : Re := .cat r (.star r false)

/-- `[c]+` for a class, greedy -/
def rClsPlus (c : CC) : Re := rPlus (.cl c)

def rClsStar (c : CC) : Re := .star (.cl c) false

/-- `\d+` -/
def rDigits : Re := rClsPlus .digit

/-- greedy `X?` -/
def rOpt (r : Re) : Re := .alt r .eps

/-! ## Static configuration data (`config_parameters.py`).

The byte stream of `config_parameters.py` stores the symbols `≤`, `±`,
`°` and `µ` in a double-encoded (mojibake) form: `≤` appears as the three
characters U+00E2 U+0089 U+010A, `±` as U+00C2 U+1E1F, `°` as U+00C2
U+1E1E, and `µ` as U+00C2 U+1E41.  The patterns below transcribe those
exact characters, because that is what the Python `re` module is handed;
`main.py` itself uses the genuine symbols in its string literals. -/

def mojiLe : Re := rcat [.lit 'â', .lit '\u0089', .lit 'Ċ']

/-- the source text `âĊ?`: only the final character carries the `?`. -/
def mojiLeOpt : Re := rcat [.lit 'â', .lit '\u0089', rOpt (.lit 'Ċ')]

def mojiPmChars : List Char := ['Â', 'ḟ']

def mojiDegChars : List Char := ['Â', 'Ḟ']

def mojiMuChars : List Char := ['Â', 'ṁ']

/-- the class `[\d.Â±\s]` of the config file. -/
def clsNumPm : CC := .or2 (.chars ('.' :: mojiPmChars)) (.or2 .digit .space)

/-- `[\d.]` -/
def clsNumDot : CC := .or2 (.chars ['.']) .digit

/-- `[\d-]` -/
def clsDigitHyphen : CC := .or2 (.chars ['-']) .digit

/-- `[A-Z\s]` under `re.IGNORECASE` (classes are case-folded by Python). -/
def clsAlphaWs : CC := .or2 .alphaC .space

def SECTION_KEYWORDS : List (String × List String) := [
  ("Cable Construction", [
    "cable", "construction", "fibre count", "fiber count", "outer sheath",
    "central strength member", "type of cable", "cable type", "structure",
    "design", "core", "tube", "elements", "fibres per tube",
    "fibers per tube", "number of fibres", "number of fibers",
    "loose tubes", "loose tube", "number of loose", "fillers",
    "moisture barrier", "core wrapping", "ripcords", "cable diameter",
    "cable weight", "armoring", "armouring"]),
  ("Colour Coding", [
    "fibre colour", "fiber colour", "tube colour", "color coding",
    "identification", "colour code", "fiber identification"]),
  ("Mechanical Characteristics", [
    "tensile strength", "crush resistance", "impact strength",
    "mechanical properties", "bend radius", "temperature",
    "operating temperature", "installation", "service"]),
  ("Optical Characteristics", [
    "attenuation", "pmd", "chromatic dispersion", "mfd",
    "mode field diameter", "optical parameters", "bandwidth", "wavelength",
    "loss", "numerical aperture"]),
  ("Physical Specifications", [
    "diameter", "weight", "dimensions", "size", "length",
    "overall diameter", "cable weight", "nominal", "physical"]),
  ("Standards & Compliance", [
    "standards", "compliance", "specification", "iec", "itu", "ansi",
    "telcordia"]),
  ("Packaging & Marking", [
    "packaging", "cable marking", "wooden drums", "packing",
    "printing details", "marking", "labels", "drums"])]

def PARAMETER_CATEGORIES : List (String × List String) := [
  ("Cable Construction", [
    "fibre count", "fiber count", "number of fibres per tube",
    "number of fibers per tube", "fibres per tube", "fibers per tube",
    "number of loose tubes", "loose tubes", "central strength member",
    "number of fillers", "fillers", "moisture barrier", "core wrapping",
    "outer sheath", "inner sheath", "number of ripcords", "ripcords",
    "cable diameter", "cable weight", "armoring", "armouring",
    "loose tube od", "overall cable diameter", "tube count", "tube od",
    "peripheral strength member"]),
  ("Cable Characteristics", [
    "tensile strength", "crush resistance", "impact strength", "torsion",
    "minimum bend radius", "bend radius", "water penetration test",
    "environmental performance", "installation", "operation", "storage",
    "temperature performance", "impact resistance"]),
  ("Fiber Characteristics", [
    "fibre type", "fiber type", "attenuation", "chromatic dispersion",
    "pmd", "polarisation mode dispersion", "pmd (max. individual)",
    "pmd (link design value)", "cable cut off wavelength",
    "cut-off wavelength", "cut off wavelength", "ÎṠcc",
    "mfd", "mode field diameter", "core cladding concentricity",
    "core-cladding concentricity error", "cladding diameter",
    "cladding non-circularity", "cladding non circularity",
    "coating diameter", "numerical aperture", "zero dispersion"]),
  ("Physical Specifications", ["drum length"]),
  ("Standards & Compliance", ["cpr class", "standards", "compliance"])]

def COLOR_CODES : List (String × String) := [
  ("bl", "Blue"), ("or", "Orange"), ("gr", "Green"), ("br", "Brown"),
  ("wh", "White"), ("gy", "Gray"), ("rd", "Red"), ("bk", "Black"),
  ("ye", "Yellow"), ("vi", "Violet"), ("pk", "Pink"), ("cy", "Cyan"),
  ("yl", "Yellow"), ("sl", "Silver"), ("nt", "Natural"), ("aq", "Aqua"),
  ("fi", "Fiber"), ("ca", "Clear"), ("na", "Natural"),
  ("blue", "Blue"), ("orange", "Orange"), ("green", "Green"),
  ("brown", "Brown"), ("white", "White"), ("gray", "Gray"), ("red", "Red"),
  ("black", "Black"), ("yellow", "Yellow"), ("violet", "Violet"),
  ("pink", "Pink"), ("cyan", "Cyan"), ("silver", "Silver"),
  ("natural", "Natural"), ("aqua", "Aqua"), ("clear", "Clear")]

def VALID_FIBER_COUNTS : List Nat := [2, 4, 6, 8, 12, 24, 48, 96, 144, 288]

/-! ### `TEXT_PARAMETER_PATTERNS` (matched with `re.IGNORECASE`, so word
literals are case-insensitive and the classes `[A-Z]`, `[a-z]`, `[A-Z\s]`
fold to all letters). -/

structure TextPat where
  re : Re
  name : String

def TEXT_PARAMETER_PATTERNS : List TextPat := [
  ⟨rcat [rLitCI "Number of Fiber per tube", rWsPlus, .grp 1 rDigits],
    "Number Of Fibres Per Tube"⟩,
  ⟨rcat [rLitCI "Number of Fibre per tube", rWsPlus, .grp 1 rDigits],
    "Number Of Fibres Per Tube"⟩,
  ⟨rcat [rLitCI "Number of Loose Tubes", rWsPlus, .grp 1 rDigits],
    "Number Of Loose Tubes"⟩,
  ⟨rcat [rLitCI "Loose Tube OD", rWsPlus,
      .grp 1 (rcat [rClsPlus clsNumPm, rLitCI "mm"])], "Loose Tube OD"⟩,
  ⟨rcat [rLitCI "Central Strength Member", rWsPlus,
      .grp 1 (rcat [rClsPlus clsNumPm, rLitCI "mm", rWsPlus,
        rClsPlus .alphaC, rWsPlus, rClsPlus .alphaC])],
    "Central Strength Member"⟩,
  ⟨rcat [rLitCI "Overall Cable Diameter", rWsPlus,
      .grp 1 (rcat [rClsPlus clsNumPm, rLitCI "mm"])], "Cable Diameter"⟩,
  ⟨rcat [rLitCI "Cable Diameter", rWsPlus,
      .grp 1 (rcat [rClsPlus clsNumPm, rLitCI "mm"])], "Cable Diameter"⟩,
  ⟨rcat [rLitCI "Cable Weight", rWsPlus,
      .grp 1 (rcat [rClsPlus clsNumPm, rLitCI "kg/km"])], "Cable Weight"⟩,
  ⟨rcat [rLitCI "Number of Ripcords", rWsPlus, .grp 1 rDigits],
    "Number Of Ripcords"⟩,
  ⟨rcat [rLitCI "Inner Sheath", rWsPlus,
      .grp 1 (rcat [rClsPlus clsNumDot, rWsPlus, rLitCI "mm", rWsPlus,
        .lit '(', rClsPlus (.exceptC [')']), .lit ')', rWsPlus,
        rClsPlus .alphaC, rWsPlus, .lit '-', rWsPlus, rClsPlus .alphaC])],
    "Inner Sheath"⟩,
  ⟨rcat [rLitCI "Outer Sheath", rWsPlus,
      .grp 1 (rcat [rClsPlus clsNumDot, rWsPlus, rLitCI "mm", rWsPlus,
        .lit '(', rClsPlus (.exceptC [')']), .lit ')', rWsPlus,
        rClsPlus (.or2 clsAlphaWs (.chars ['-']))])], "Outer Sheath"⟩,
  ⟨rcat [rLitCI "Armoring", rWsPlus, rLit "---", rWsPlus,
      .grp 1 (rcat [rClsPlus clsAlphaWs, rLitCI "Tape"])], "Armoring"⟩,
  ⟨rcat [rLitCI "Peripheral Strength Member", rWsPlus,
      .grp 1 (rcat [rClsPlus clsAlphaWs, rLitCI "Yarn"])],
    "Peripheral Strength Member"⟩,
  ⟨rcat [rLitCI "Moisture Barrier", rWsPlus, rLit "---", rWsPlus,
      .grp 1 (rcat [rClsPlus clsAlphaWs, rLitCI "Gel"])],
    "Moisture Barrier"⟩,
  ⟨rcat [rLitCI "Core Wrapping", rWsPlus, rLit "---", rWsPlus,
      .grp 1 (rcat [rClsPlus clsAlphaWs, rLitCI "Tape"])], "Core Wrapping"⟩,
  ⟨rcat [rLitCI "Tensile Strength", rWsPlus,
      rOpt (rcat [rLitCI "at", rWsPlus]),
      .grp 1 (rcat [rDigits, rWsStar, rLitCI "nm", rWsStar, mojiLe,
        rWsStar, rClsPlus clsNumDot, rWsStar, rLitCI "dB/km", rWsPlus,
        rClsPlus clsNumDot, rLitCI "W@", rClsPlus clsNumDot, rWsStar,
        .lit '%', rWsStar, rLitCI "Fiber", rWsStar, rLitCI "Strain"])],
    "Tensile Strength"⟩,
  ⟨rcat [.grp 1 (rcat [rDigits, rOpt (.lit '.'), rClsStar .digit,
        rLitCI "W", rWsStar, .lit '@', rWsStar, rClsPlus clsNumDot,
        rWsStar, .lit '%', rWsStar, rLitCI "Fiber", rWsStar,
        rLitCI "Strain"]), rWsPlus, rLitCI "Installation"],
    "Max. Tensile Strength"⟩,
  ⟨rcat [rLitCI "Attenuation", rWsPlus, rLitCI "at", rWsPlus,
      .grp 1 (rcat [rDigits, rWsStar, rLitCI "nm"]), rWsStar, mojiLeOpt,
      rWsStar, .grp 2 (rcat [rClsPlus clsNumDot, rWsStar, rLitCI "dB/km"])],
    "Attenuation"⟩,
  ⟨rcat [rLitCI "at", rWsPlus,
      .grp 1 (rcat [rDigits, rWsStar, rLitCI "nm"]), rWsStar, mojiLeOpt,
      rWsStar, .grp 2 (rcat [rClsPlus clsNumDot, rWsStar, rLitCI "dB/km"])],
    "Attenuation"⟩,
  ⟨rcat [rOpt (rcat [rLitCI "at", rWsPlus]),
      .grp 1 (rcat [rDigits, rWsStar, rLitCI "nm"]), rWsPlus,
      .grp 2 (rcat [rClsPlus clsNumPm, rLit (String.mk mojiMuChars),
        rLitCI "m"])], "Mode Field Diameter"⟩,
  ⟨rcat [rLitCI "Mode Field Diameter", rWsPlus, rLitCI "at", rWsPlus,
      .grp 1 (rcat [rDigits, rWsStar, rLitCI "nm"]), rWsPlus,
      .grp 2 (rcat [rClsPlus clsNumPm, rLit (String.mk mojiMuChars),
        rLitCI "m"])], "Mode Field Diameter"⟩,
  ⟨rcat [.grp 1 (rcat [rDigits, rWsStar, .lit '-', rWsStar, rDigits,
        rWsStar, rLitCI "nm"]), rWsStar, mojiLeOpt, rWsStar,
      .grp 2 (rcat [rClsPlus clsNumDot, rWsStar, rLitCI "ps/nm.km"])],
    "Chromatic Dispersion"⟩,
  ⟨rcat [rLitCI "Chromatic Dispersion", rWsPlus,
      .grp 1 (rcat [rDigits, rWsStar, rLitCI "nm"]), rWsStar, mojiLeOpt,
      rWsStar, .grp 2 (rcat [rClsPlus clsNumDot, rWsStar,
        rLitCI "ps/nm.km"])], "Chromatic Dispersion"⟩]

/-! ### `FIBER_COUNT_TEXT_PATTERNS` (matched with `re.IGNORECASE`). -/

def FIBER_COUNT_TEXT_PATTERNS : List Re := [
  rcat [.alt (rLitCI "fiber") (rLitCI "fibre"), rWsPlus, rLitCI "count",
    rOpt (.lit ':'), rWsStar, .grp 1 rDigits, rOpt (.litCI 'F')],
  rcat [.grp 1 rDigits, .litCI 'F', rWsPlus,
    .alt (rLitCI "fiber") (rLitCI "fibre")],
  rcat [.grp 1 rDigits, .litCI 'F', rWsStar, .cl (.chars [',', '/', '&'])],
  rcat [.grp 1 rDigits, .litCI 'F', rWsStar,
    .alt (rLitCI "cable") (rLitCI "optical")],
  rcat [.alt .bos (.cl .space), .grp 1 rDigits, .litCI 'F',
    .look (.alt (.cl .space) (.alt .eol (.cl (.chars [',', '/', '&']))))]]

/-- main.py line 113: `(\d+F(?:\s*,\s*\d+F)+)` (with `re.IGNORECASE`). -/
def fcCommaP : Re :=
  .grp 1 (rcat [rDigits, .litCI 'F',
    rPlus (rcat [rWsStar, .lit ',', rWsStar, rDigits, .litCI 'F'])])

/-- main.py line 116: `(\d+)F` (no flags, hence an upper-case `F`). -/
def digitsFCaseP : Re := rcat [.grp 1 rDigits, .lit 'F']

/-- main.py line 131: `(\d+F(?:,\d+F)*)` applied to the upper-cased filename. -/
def fnCommaP : Re :=
  .grp 1 (rcat [rDigits, .lit 'F',
    .star (rcat [.lit ',', rDigits, .lit 'F']) false])

/-! ### Tabular colour-coding patterns (`re.IGNORECASE`). -/

def fibreCountTabP : Re :=
  rcat [rLitCI "Fibre", rWsPlus, rLitCI "Count", rWsPlus,
    .grp 1 (rPlus (rcat [rDigits, rWsStar]))]

def fibreColourTabP : Re :=
  rcat [rLitCI "Fibre", rWsPlus, rLitCI "Colour", rWsPlus,
    .grp 1 (rPlus (rcat [.cl .alphaC, .cl .alphaC, rOpt (.lit '*'),
      rWsStar]))]

/-- main.py line 327: `[A-Za-z]{2}\*?` (no flags). -/
def colorCodeTokP : Re := rcat [.cl .alphaC, .cl .alphaC, rOpt (.lit '*')]

/-! ### Patterns of `clean_parameter_value` (no flags). -/

/-- `\s*IEC-[\d-]+(?:-[A-Z]\d+)?\s*` -/
def iecFullP : Re :=
  rcat [rWsStar, rLit "IEC-", rClsPlus clsDigitHyphen,
    rOpt (rcat [.lit '-', .cl .upper, rDigits]), rWsStar]

/-- `([A-Z]\d+)$` -/
def trailCodeP : Re := rcat [.grp 1 (.cat (.cl .upper) rDigits), .eol]

/-- `^[A-Z]\d+$` (used with `re.match`). -/
def aloneCodeP : Re := rcat [.cl .upper, rDigits, .eol]

/-! ### `ENHANCED_TEXT_PATTERNS` (matched without `re.IGNORECASE`;
`tensile_installation_operation` is searched with `re.DOTALL`, so its `.`
really matches every character). -/

def tempRangeGrpRe : Re :=
  rcat [rOpt (.cl (.chars ['-', '+'])), rDigits, rWsStar,
    rLit (String.mk mojiDegChars), .lit 'C', rWsStar, rLit "to", rWsStar,
    rOpt (.cl (.chars ['+', '-'])), rDigits, rWsStar,
    rLit (String.mk mojiDegChars), .lit 'C']

def optIecTailRe : Re :=
  rOpt (rcat [rWsStar, rLit "IEC-", rClsPlus clsDigitHyphen])

def envInstallationRe : Re :=
  rcat [rLit "Installation", rWsPlus, .grp 1 tempRangeGrpRe,
    rOpt (rcat [rWsPlus, rLit "Environmental Performance"])]

def envOperationRe : Re :=
  rcat [rOpt (rcat [rLit "Environmental Performance", rWsPlus]),
    rLit "Operation", rWsPlus, .grp 1 tempRangeGrpRe]

def envStorageRe : Re :=
  rcat [rLit "Storage", rWsPlus, .grp 1 tempRangeGrpRe]

def ENHANCED_TEXT_PATTERNS : List (String × Re) := [
  ("tensile_installation_operation",
    rcat [rLit "Installation:", rWsStar,
      .grp 1 (rcat [rDigits, rWsStar, .lit 'N']), rWsStar,
      .star (.cl (.exceptC [])) true, rLit "Operation:", rWsStar,
      .grp 2 (rcat [rDigits, rWsStar, .lit 'N'])]),
  ("max_tensile_strength",
    rcat [rOpt (rcat [rLit "Max.", rWsStar]), rLit "Tensile", rWsStar,
      rLit "Strength", rWsStar, rLit "(max.)", rWsStar,
      .grp 1 (rcat [rDigits, rWsStar, .lit 'N']), optIecTailRe]),
  ("tensile_strength_max",
    rcat [rLit "Tensile", rWsStar, rLit "Strength", rWsStar, rLit "(max.)",
      rWsStar, .grp 1 (rcat [rDigits, rWsStar, .lit 'N']), optIecTailRe]),
  ("crush_resistance",
    rcat [rOpt (rcat [rLit "Max.", rWsStar]), rLit "Crush", rWsStar,
      rLit "Resistance", rWsStar,
      .grp 1 (rcat [rClsPlus clsNumDot, rWsStar, rLit "N/",
        rClsPlus clsNumDot, rWsStar,
        rOpt (rcat [rLit "x", rWsStar, rClsPlus clsNumDot, rWsStar]),
        .alt (rLit "mm") (rLit "cm")]), optIecTailRe]),
  ("impact_resistance",
    rcat [rLit "Impact", rWsStar,
      .alt (rLit "Resistance") (rLit "Strength"), rWsStar,
      .grp 1 (rcat [rClsPlus clsNumDot, rWsStar, rLit "N.m"]),
      optIecTailRe]),
  ("impact_strength",
    rcat [rLit "Impact", rWsStar, rLit "Strength", rWsStar,
      .grp 1 (rcat [rClsPlus clsNumDot, rWsStar, rLit "N.m"]),
      optIecTailRe]),
  ("torsion",
    rcat [rLit "Torsion", rWsStar,
      .grp 1 (rcat [rLit (String.mk mojiPmChars), rWsStar, rDigits,
        rWsStar, rLit (String.mk mojiDegChars)]), optIecTailRe]),
  ("minimum_bend_radius",
    rcat [rLit "Minimum", rWsStar, rLit "Bend", rWsStar, rLit "Radius",
      rWsStar,
      .grp 1 (rcat [rClsPlus clsNumDot, rWsStar,
        .alt (rcat [rLit "x", rWsStar, rLit "D"]) (rLit "mm")]),
      optIecTailRe]),
  ("water_penetration",
    rcat [rLit "Water", rWsStar, rLit "Penetration", rWsStar, rLit "Test",
      rWsStar,
      .grp 1 (rcat [rClsPlus clsNumDot, rWsStar, .lit 'm', rWsStar,
        rLit "water", rWsStar, rLit "head,", rWsStar, rClsPlus clsNumDot,
        rWsStar, .lit 'm', rWsStar, rLit "sample,", rWsStar,
        rClsPlus clsNumDot, rWsStar, rLit "hours"]), optIecTailRe]),
  ("environmental_installation", envInstallationRe),
  ("environmental_operation", envOperationRe),
  ("environmental_storage", envStorageRe),
  ("installation_temp", envInstallationRe),
  ("operation_temp", envOperationRe),
  ("storage_temp", envStorageRe),
  ("attenuation",
    rcat [.grp 1 rDigits, rWsStar, rLit "nm", rWsStar, mojiLe, rWsStar,
      .grp 2 (rClsPlus clsNumDot), rWsStar, rLit "dB/km"]),
  ("mode_field_diameter",
    rcat [.grp 1 rDigits, rWsStar, rLit "nm", rWsPlus,
      .grp 2 (rClsPlus clsNumPm), rWsStar, rLit (String.mk mojiMuChars),
      .lit 'm'])]

/-! ## Insertion-ordered association lists: the model of Python dicts. -/

def lookupA {α : Type} : List (String × α) → String → Option α
  | [], _ => none
  | p :: t, k => if p.1 = k then some p.2 else lookupA t k

/-- `d[k] = v`: update in place when the key exists, else append. -/
def setA {α : Type} : List (String × α) → String → α → List (String × α)
  | [], k, v => [(k, v)]
  | p :: t, k, v => if p.1 = k then (k, v) :: t else p :: setA t k v

/-- `del d[k]` -/
def eraseA {α : Type} (l : List (String × α)) (k : String) :
    List (String × α) :=
  l.filter (fun p => p.1 ≠ k)

/-! ## The `ParameterManager` (`config_parameters.py`).

The dynamic overlay file `dynamic_parameters.json` does not exist in the
repository, so a fresh process starts from an empty overlay (`pmInit`);
persisting the overlay is I/O outside the data model and is a no-op here.
The manager's state is threaded explicitly through every function that
mutates it in Python. -/

structure PM where
  params : List (String × List String)
  patterns : List TextPat
  sectionKeywords : List (String × List String)
  descriptions : List (String × String)

def pmInit : PM := ⟨[], [], [], []⟩

/-- `get_section_keywords`: static keywords extended by the dynamic ones.
(The Python shallow `copy()` mutates the static lists in place, which is
observationally the same as this functional merge for every lookup.) -/
def get_section_keywords (pm : PM) : List (String × List String) :=
  SECTION_KEYWORDS.map
      (fun p => (p.1, p.2 ++ ((lookupA pm.sectionKeywords p.1).getD [])))
    ++ pm.sectionKeywords.filter (fun p => lookupA SECTION_KEYWORDS p.1 = none)

def identify_section_from_keywords (pm : PM) (text : String) : String :=
  let tl := lowerL text.data
  match (get_section_keywords pm).find? (fun p =>
      p.2.any (fun kw => containsSub tl (lowerL kw.data))) with
  | some p => p.1
  | none =>
    if ["fiber", "fibre", "attenuation", "dispersion", "mode", "wavelength",
        "core", "cladding"].any (fun w => containsSub tl w.data) then
      "Fiber Characteristics"
    else if ["tube", "diameter", "weight", "sheath", "armor", "strength",
        "construction"].any (fun w => containsSub tl w.data) then
      "Cable Construction"
    else if ["tensile", "crush", "bend", "temperature", "environmental",
        "torsion", "impact"].any (fun w => containsSub tl w.data) then
      "Cable Characteristics"
    else if ["color", "colour", "coding"].any
        (fun w => containsSub tl w.data) then
      "Colour Coding"
    else if ["drum", "length", "packing", "marking"].any
        (fun w => containsSub tl w.data) then
      "Physical Specifications"
    else "General Information"

def get_parameter_category (pm : PM) (parameter_name : String) : String :=
  let pl := lowerL parameter_name.data
  match PARAMETER_CATEGORIES.find? (fun c =>
      c.2.any (fun param => containsSub pl (lowerL param.data)
        || containsSub (lowerL param.data) pl)) with
  | some c => c.1
  | none =>
    match pm.params.find? (fun c =>
        c.2.any (fun param => containsSub pl (lowerL param.data)
          || containsSub (lowerL param.data) pl)) with
    | some c => c.1
    | none => identify_section_from_keywords pm parameter_name

/-- The escaped parameter name with each occurrence of `needle` replaced by
`repl` (the `clean_name.replace(...)` calls of
`generate_pattern_for_parameter`; `re.escape` leaves the characters of the
names used here literal). -/
def spliceAll (name needle : List Char) (repl : Re) : Re :=
  match name with
  | [] => .eps
  | c :: t =>
    if needle.isEmpty then rcat ((c :: t).map .litCI)
    else if needle.isPrefixOf (c :: t) then
      .cat repl (spliceAll (t.drop (needle.length - 1)) needle repl)
    else .cat (.litCI c) (spliceAll t needle repl)
termination_by name.length
decreasing_by
  · simp [List.length_drop]
    omega
  · simp

/-- `fibr?e?` -/
def fibreVarRe : Re := rcat [rLitCI "fib", rOpt (.litCI 'r'), rOpt (.litCI 'e')]

/-- `colou?r` -/
def colourVarRe : Re := rcat [rLitCI "colo", rOpt (.litCI 'u'), .litCI 'r']

/-- `dia\.?(?:meter)?` -/
def diaVarRe : Re := rcat [rLitCI "dia", rOpt (.lit '.'), rOpt (rLitCI "meter")]

/-- `[:\s]*([^,\n]+?)(?=\s*(?:[A-Z][a-z]|$|\n))` under `re.IGNORECASE`. -/
def genericValueRe : Re :=
  rcat [rClsStar (.or2 (.chars [':']) .space),
    .grp 1 (.cat (.cl (.exceptC [',', '\n']))
      (.star (.cl (.exceptC [',', '\n'])) true)),
    .look (rcat [rWsStar,
      .alt (.cat (.cl .alphaC) (.cl .alphaC)) (.alt .eol (.lit '\n'))])]

/-- `generate_pattern_for_parameter`.  Run under Python ≥ 3.7, `re.escape`
does not escape spaces, so the `.replace(r'\ ', r'\s+')` calls are no-ops
and name characters stay literal. -/
def generate_pattern_for_parameter (parameter_name : String) : Re :=
  let clean_name : List Char := lowerL parameter_name.data
  let nameLits : Re := rcat (clean_name.map .litCI)
  if containsSub clean_name "attenuation".data then
    rcat [rOpt (rcat [rLitCI "attenuation", rWsPlus, rLitCI "at", rWsPlus]),
      .grp 1 (rcat [rDigits, rWsStar, rLitCI "nm"]), rWsStar, mojiLeOpt,
      rWsStar, .grp 2 (rcat [rClsPlus clsNumDot, rWsStar, rLitCI "dB/km"])]
  else if containsSub clean_name "mode field diameter".data
      || containsSub clean_name "mfd".data then
    rcat [rOpt (.alt
        (rcat [rLitCI "mode", rWsPlus, rLitCI "field", rWsPlus,
          rLitCI "diameter", rWsPlus, rLitCI "at", rWsPlus])
        (rcat [rLitCI "mfd", rWsPlus, rLitCI "at", rWsPlus])),
      .grp 1 (rcat [rDigits, rWsStar, rLitCI "nm"]), rWsPlus,
      .grp 2 (rcat [rClsPlus clsNumPm, rLit (String.mk mojiMuChars),
        rLitCI "m"])]
  else if containsSub clean_name "chromatic dispersion".data then
    rcat [rOpt (rcat [rLitCI "chromatic", rWsPlus, rLitCI "dispersion",
        rWsPlus]),
      .grp 1 (rcat [rDigits, rWsStar,
        rOpt (rcat [.lit '-', rWsStar, rDigits]), rWsStar, rLitCI "nm"]),
      rWsStar, mojiLeOpt, rWsStar,
      .grp 2 (rcat [rClsPlus clsNumDot, rWsStar, rLitCI "ps/nm.km"])]
  else if containsSub clean_name "wavelength".data then
    rcat [nameLits, rWsStar,
      .grp 1 (rcat [rClsPlus (.or2 (.chars ['.', '-']) .digit), rWsStar,
        rLitCI "nm"])]
  else if ["diameter", "weight", "length", "radius"].any
      (fun u => containsSub clean_name u.data) then
    rcat [nameLits, rClsStar (.or2 (.chars [':']) .space),
      .grp 1 (rcat [rClsPlus clsNumPm, rWsStar,
        .alt (rLitCI "mm") (.alt (rLitCI "kg/km") (.alt (rLitCI "km")
          (.alt (rLitCI "m")
            (.alt (rcat [rLit (String.mk mojiMuChars), rLitCI "m"])
              (rLitCI "nm")))))])]
  else if ["strength", "resistance", "force"].any
      (fun u => containsSub clean_name u.data) then
    rcat [nameLits, rClsStar (.or2 (.chars [':']) .space),
      .grp 1 (rcat [rClsPlus clsNumPm, rWsStar,
        .alt (rLitCI "N") (.alt (rLitCI "kN") (.alt (rLitCI "N/mm")
          (.alt (rLitCI "N.m") (rLitCI "kg"))))])]
  else
    let v3 := spliceAll clean_name "fibre".data fibreVarRe
    let v4 := spliceAll clean_name "fiber".data fibreVarRe
    let v5 := spliceAll clean_name "colour".data colourVarRe
    let v6 := spliceAll clean_name "diameter".data diaVarRe
    rcat [.alt nameLits (.alt nameLits (.alt v3 (.alt v4 (.alt v5 v6)))),
      genericValueRe]

def add_new_section_keyword (pm : PM) (sec keyword : String) : PM :=
  let generic_words : List String :=
    ["of", "the", "and", "or", "in", "at", "to", "for", "with", "number",
     "type", "mode"]
  if generic_words.contains (String.mk (lowerL keyword.data))
      || keyword.data.length < 3 then pm
  else
    let cur := (lookupA pm.sectionKeywords sec).getD []
    if cur.any (fun k => lowerL k.data = lowerL keyword.data) then pm
    else
      { pm with sectionKeywords := (setA pm.sectionKeywords sec (cur ++ [keyword])) }

/-- `ParameterManager.add_new_parameter` (the `save_dynamic_parameters`
persistence call is file I/O and is dropped; its failure does not change
the in-memory state either). -/
def add_new_parameter (pm : PM) (parameter_name sec : String)
    (pattern : Option Re) (description : Option String) : PM × String :=
  let pl := String.mk (lowerL parameter_name.data)
  match PARAMETER_CATEGORIES.find? (fun c =>
      c.2.any (fun p => String.mk (lowerL p.data) = pl)) with
  | some c => (pm, c.1)
  | none =>
    let cur := (lookupA pm.params sec).getD []
    if cur.any (fun p => String.mk (lowerL p.data) = pl) then (pm, sec)
    else
      let pm1 := { pm with params := (setA pm.params sec (cur ++ [parameter_name])) }
      let pat := pattern.getD (generate_pattern_for_parameter parameter_name)
      let pm2 := { pm1 with patterns := pm1.patterns ++ [⟨pat, parameter_name⟩] }
      let firstWord := String.mk ((splitWsPy parameter_name.data).headD [])
      let pm3 := add_new_section_keyword pm2 sec firstWord
      let pm4 := match description with
        | some d =>
          { pm3 with descriptions := setA pm3.descriptions parameter_name d }
        | none => pm3
      (pm4, sec)

def identify_section (pm : PM) (row_text : String) : String :=
  identify_section_from_keywords pm row_text

def categorize_parameter (pm : PM) (parameter_name : String) : String :=
  get_parameter_category pm parameter_name

def get_all_text_patterns (pm : PM) : List TextPat :=
  TEXT_PARAMETER_PATTERNS ++ pm.patterns

def add_parameter_if_new (pm : PM) (parameter_name : String)
    (suggested_section : Option String) : PM × String :=
  let sec := match suggested_section with
    | some s => if s = "" then identify_section pm parameter_name else s
    | none => identify_section pm parameter_name
  add_new_parameter pm parameter_name sec none none

def ensure_parameter_exists (pm : PM) (parameter_name : String)
    (parameter_value : Option String) : PM × String :=
  let existing := categorize_parameter pm parameter_name
  if existing = "General Information" then
    let better :=
      match parameter_value with
      | some v =>
        if v ≠ "" then
          identify_section_from_keywords pm (parameter_name ++ " " ++ v)
        else identify_section_from_keywords pm parameter_name
      | none => identify_section_from_keywords pm parameter_name
    add_parameter_if_new pm parameter_name (some better)
  else (pm, existing)

/-! ## Data model of the pipeline (`main.py`). -/

/-- A value of `Technical_Specifications`: either a string or, for colour
parameters, an ordered fiber-number → colour-name mapping. -/
inductive PVal where
  | s (v : String)
  | cm (m : List (String × String))
deriving DecidableEq, Repr

/-- Python truthiness of a stored value (`""` and `{}` are falsy). -/
def PVal.truthy : PVal → Bool
  | .s v => v ≠ ""
  | .cm m => !m.isEmpty

abbrev Specs := List (String × List (String × PVal))

/-- The per-variant record built by `extract_grouped_data`:
`Document_Text_Content` and `Technical_Specifications`. -/
structure Record where
  dtc : List (String × List (String × String))
  ts : Specs
deriving DecidableEq, Repr

/-- One page of the document, as delivered by the extraction primitive:
`page.extract_text()` and `page.extract_tables()`. -/
structure Page where
  text : Option String
  tables : List (List (List (Option String)))

/-! ## Leaf functions of `main.py`. -/

/-- `clean_parameter_value` (main.py lines 60-78). -/
def clean_parameter_valueL (value : List Char) : List Char :=
  let cleaned := subAllRe iecFullP [] value
  let cleaned := subAllRe trailCodeP [] cleaned
  if (matchRe aloneCodeP (stripPy cleaned)).isSome then []
  else stripPy (subAllRe rWsPlus [' '] cleaned)

def clean_parameter_value (value : String) : String :=
  if value = "" then value
  else String.mk (clean_parameter_valueL value.data)

/-- `re.split(r'[,\s]+', s)`: split on runs of separator characters. -/
def splitSepRunsAux (p : Char → Bool) : List Char → List Char → List (List Char)
  | [], word => [word.reverse]
  | c :: r, word =>
    if p c then
      match r with
      | [] => [word.reverse, []]
      | c2 :: _ =>
        if p c2 then splitSepRunsAux p r word
        else word.reverse :: splitSepRunsAux p r []
    else splitSepRunsAux p r (c :: word)

def splitSepRuns (p : Char → Bool) (s : List Char) : List (List Char) :=
  splitSepRunsAux p s []

/-- `parse_color_sequence` (main.py lines 80-97). -/
def parse_color_sequence (text : String) : List (String × String) :=
  if text = "" || stripPy text.data = "---".data then []
  else
    let colors := splitSepRuns (fun c => c = ',' || isSpacePy c)
      (lowerL (stripPy text.data))
    let colors := (colors.map stripPy).filter (fun c => !c.isEmpty)
    colors.enum.foldl (fun acc ic =>
      let color := String.mk ic.2
      match lookupA COLOR_CODES color with
      | some nm => setA acc (toString (ic.1 + 1)) nm
      | none =>
        if ic.2.length ≥ 2 then
          setA acc (toString (ic.1 + 1)) (String.mk (titlePy ic.2))
        else acc) []

/-- Insertion into the model of a Python `set` (insertion-ordered, since no
property below depends on the hash iteration order of CPython sets). -/
def insertSet (l : List String) (x : String) : List String :=
  if l.contains x then l else l ++ [x]

/-- `extract_fiber_counts_from_text` (main.py lines 99-122). -/
def extract_fiber_counts_from_text (text : String) : List String :=
  let cs := text.data
  let s1 := FIBER_COUNT_TEXT_PATTERNS.foldl (fun acc pat =>
    (findAllRe pat cs).foldl (fun acc2 m =>
      let count := natOfDigits ((capGet m.2.2 1).getD [])
      if VALID_FIBER_COUNTS.contains count then
        insertSet acc2 (toString count ++ "F")
      else acc2) acc) []
  (findAllRe fcCommaP cs).foldl (fun acc m =>
    let g := (capGet m.2.2 1).getD []
    (findAllRe digitsFCaseP g).foldl (fun acc2 m2 =>
      let count := natOfDigits ((capGet m2.2.2 1).getD [])
      if VALID_FIBER_COUNTS.contains count then
        insertSet acc2 (toString count ++ "F")
      else acc2) acc) s1

def insertDesc (x : Nat) : List Nat → List Nat
  | [] => [x]
  | y :: t => if x ≥ y then x :: y :: t else y :: insertDesc x t

/-- `sorted(..., reverse=True)` on numbers. -/
def sortDesc (l : List Nat) : List Nat := l.foldr insertDesc []

/-- The labels built from a list of raw counts: keep the allow-listed ones,
sort them descending and attach the `F` marker (the shared tail of both
branches of `extract_primary_fiber_count_from_filename`). -/
def validLabelsDesc (counts : List Nat) : List String :=
  (sortDesc (counts.filter (fun c => VALID_FIBER_COUNTS.contains c))).map
    (fun c => toString c ++ "F")

/-- `extract_primary_fiber_count_from_filename` (main.py lines 124-158).
(`validLabelsDesc counts` is empty exactly when the source's `valid_counts`
list is, so the `if valid_counts:` guards map to emptiness checks on it.) -/
def extract_primary_fiber_count_from_filename (filename : String) :
    List String :=
  let fu := upperL filename.data
  let comma_matches := (findAllRe fnCommaP fu).map
    (fun m => (capGet m.2.2 1).getD [])
  let viaComma : Option (List String) :=
    if !comma_matches.isEmpty then
      let all_counts := comma_matches.foldl (fun acc g =>
        acc ++ (findAllRe digitsFCaseP g).map
          (fun m2 => natOfDigits ((capGet m2.2.2 1).getD []))) []
      if !all_counts.isEmpty then
        let labels := validLabelsDesc all_counts
        if !labels.isEmpty then some labels else none
      else none
    else none
  match viaComma with
  | some r => r
  | none =>
    let ms := (findAllRe digitsFCaseP fu).map
      (fun m => natOfDigits ((capGet m.2.2 1).getD []))
    if !ms.isEmpty then validLabelsDesc ms else []

/-- `calculate_fiber_count_from_construction` (main.py lines 160-194).
Later rows overwrite earlier hits, exactly as the Python loop assigns;
`if fibers_per_tube and num_tubes` makes a zero value falsy. -/
def calculate_fiber_count_from_construction
    (tables : List (List (List (Option String)))) : Option String :=
  let res : Option Nat × Option Nat := tables.foldl (fun st table =>
    table.foldl (fun st2 row =>
      let cleaned := (row.filterMap id).map (fun cell => stripPy cell.data)
      if cleaned.length < 2 then st2
      else
        let param_name := lowerL (cleaned.headD [])
        let st3 :=
          if ["fiber per tube", "fibre per tube", "fibres per tube"].any
              (fun p => containsSub param_name p.data) then
            match cleaned.tail.find?
                (fun cell => !cell.isEmpty && isdigitStr cell) with
            | some cell => (some (natOfDigits cell), st2.2)
            | none => st2
          else st2
        if ["number of tube", "loose tube", "tubes"].any
            (fun p => containsSub param_name p.data) then
          match cleaned.tail.find? (fun cell =>
              !cell.isEmpty && isdigitStr cell && natOfDigits cell ≤ 50) with
          | some cell => (st3.1, some (natOfDigits cell))
          | none => st3
        else st3) st) (none, none)
  match res with
  | (some fpt, some nt) =>
    if fpt ≠ 0 && nt ≠ 0 then
      let total := fpt * nt
      if VALID_FIBER_COUNTS.contains total then some (toString total ++ "F")
      else none
    else none
  | _ => none

/-- One line of the heading/buffer scan of `extract_text_content`
(main.py lines 196-236).  Note the Python code clears `content_buffer`
only when a previous heading exists, so text seen before the first
heading stays buffered and is attached to it. -/
def etcStep (headingKws : List String)
    (st : Option (List Char) × List (List Char) × List (String × String))
    (line : List Char) :
    Option (List Char) × List (List Char) × List (String × String) :=
  let (current_heading, buffer, out) := st
  if line.isEmpty then st
  else if (isupperStr line && line.length > 3)
      || headingKws.any (fun kw => containsSub (lowerL line) kw.data) then
    let (out', buffer') :=
      match current_heading with
      | some h =>
        if !buffer.isEmpty then
          (setA out (String.mk h)
            (String.mk (joinSep " ".data buffer)), [])
        else (out, buffer)
      | none => (out, buffer)
    (some line, buffer', out')
  else (current_heading, buffer ++ [line], out)

def extract_text_content (pageText : Option String) :
    List (String × String) :=
  match pageText with
  | none => []
  | some full_text =>
    if full_text = "" then []
    else
      let lines := (splitOnChar '\n' full_text.data).map stripPy
      let headingKws : List String :=
        ["specification", "description", "technical", "parameters",
         "characteristics"]
      let step := lines.foldl (etcStep headingKws) (none, [], [])
      match step.1 with
      | some h =>
        if !step.2.1.isEmpty then
          setA step.2.2 (String.mk h) (String.mk (joinSep " ".data step.2.1))
        else step.2.2
      | none => step.2.2

/-- `extract_parameters_from_text` (main.py lines 238-294); threads the
registry state mutated by `ensure_parameter_exists`.  The
`detected_fiber_counts` argument is unused, as in the source. -/
def extract_parameters_from_text (pm : PM) (text : String)
    (detected_fiber_counts : List String) :
    PM × List (String × List (String × String)) :=
  let _ := detected_fiber_counts
  (get_all_text_patterns pm).foldl (fun st tp =>
    (findAllRe tp.re text.data).foldl (fun st2 m =>
      let (pm2, parameters) := st2
      let caps := m.2.2
      let nl := lowerL tp.name.data
      let pr :=
        if tp.re.groupCount > 1 then
          let g1 := String.mk (stripPy ((capGet caps 1).getD []))
          let g2 := String.mk (stripPy ((capGet caps 2).getD []))
          if containsSub nl "attenuation".data then
            ("Attenuation at " ++ g1, clean_parameter_value ("≤ " ++ g2))
          else if containsSub nl "mode field diameter".data then
            ("MFD at " ++ g1, clean_parameter_value g2)
          else if containsSub nl "chromatic dispersion".data then
            ("Chromatic Dispersion at " ++ g1,
              clean_parameter_value ("≤ " ++ g2))
          else
            (tp.name, clean_parameter_value (String.mk (stripPy
              (joinSep " ".data
                [(capGet caps 1).getD [], (capGet caps 2).getD []]))))
        else
          let g1 := String.mk (stripPy ((capGet caps 1).getD []))
          if containsSub nl "environmental_installation".data
              || containsSub nl "installation_temp".data then
            ("Installation Temperature", clean_parameter_value g1)
          else if containsSub nl "environmental_operation".data
              || containsSub nl "operation_temp".data then
            ("Operation Temperature", clean_parameter_value g1)
          else if containsSub nl "environmental_storage".data
              || containsSub nl "storage_temp".data then
            ("Storage Temperature", clean_parameter_value g1)
          else if containsSub nl "tensile_strength_max".data then
            ("Max. Tensile Strength", clean_parameter_value g1)
          else (tp.name, clean_parameter_value g1)
      let (pm3, sec) := ensure_parameter_exists pm2 pr.1 (some pr.2)
      let secMap := (lookupA parameters sec).getD []
      (pm3, setA parameters sec (setA secMap pr.1 pr.2))) st)
    (pm, [])

/-- `extract_tabular_color_coding` (main.py lines 309-344). -/
def extract_tabular_color_coding (text : String)
    (max_fiber_count : Option Nat) :
    List (String × List (String × String)) :=
  let count_matches := (findAllRe fibreCountTabP text.data).map
    (fun m => (capGet m.2.2 1).getD [])
  let color_matches := (findAllRe fibreColourTabP text.data).map
    (fun m => (capGet m.2.2 1).getD [])
  let color_mapping :=
    if !count_matches.isEmpty && !color_matches.isEmpty then
      (count_matches.zip color_matches).foldl (fun acc p =>
        let fiber_numbers := (findAllRe rDigits p.1).map
          (fun m => sliceAt p.1 m.1 m.2.1)
        let color_codes := (findAllRe colorCodeTokP p.2).map
          (fun m => sliceAt p.2 m.1 m.2.1)
        (fiber_numbers.zip color_codes).foldl (fun acc2 q =>
          let clean_color := lowerL (q.2.filter (fun c => c ≠ '*'))
          let color_name :=
            match lookupA COLOR_CODES (String.mk clean_color) with
            | some n => n
            | none => String.mk (titlePy clean_color)
          let withinLimit :=
            match max_fiber_count with
            | none => true
            | some k => natOfDigits q.1 ≤ k
          if withinLimit then setA acc2 (String.mk q.1) color_name
          else acc2) acc) []
    else []
  if !color_mapping.isEmpty then [("Fibre Colour", color_mapping)] else []

/-- `extract_color_coding_from_text` (main.py lines 296-307): only the
tabular form feeds the pipeline. -/
def extract_color_coding_from_text (text : String)
    (max_fiber_count : Option Nat) :
    List (String × List (String × String)) :=
  extract_tabular_color_coding text max_fiber_count

/-! ## `extract_grouped_data` (main.py lines 346-978).

All mutable state of the Python function is threaded explicitly:
`fibre_data`, `current_section`, `fiber_column_mappings` (function-level,
shared by every table of every page), `fiber_specific_values`, the
module-level global `COLUMN_MAPPINGS` (which outlives the call and is both
input and output here), and the registry state. -/

structure LoopSt where
  pm : PM
  fd : List (String × Record)
  currentSection : String
  fcm : List (String × Nat)
  fsv : List (String × List (String × String))
  cmG : List (String × Nat × String)

def getRec (fd : List (String × Record)) (fc : String) : Record :=
  (lookupA fd fc).getD ⟨[], []⟩

def setRec (fd : List (String × Record)) (fc : String) (r : Record) :
    List (String × Record) :=
  setA fd fc r

def getSec (ts : Specs) (sec : String) : List (String × PVal) :=
  (lookupA ts sec).getD []

/-- `if sec not in ts: ts[sec] = {}` -/
def ensureSec (ts : Specs) (sec : String) : Specs :=
  if (lookupA ts sec).isSome then ts else ts ++ [(sec, [])]

/-- `ts.setdefault(sec, {})[name] = v` / ensure-section-then-assign. -/
def setParam (ts : Specs) (sec name : String) (v : PVal) : Specs :=
  setA (ensureSec ts sec) sec (setA (getSec ts sec) name v)

/-- ensure-section then `if name not in ts[sec]: ts[sec][name] = v`. -/
def setParamIfAbsent (ts : Specs) (sec name : String) (v : PVal) : Specs :=
  match lookupA (getSec ts sec) name with
  | some _ => ts
  | none => setParam ts sec name v

/-- ensure-section then
`if name not in ts[sec] or not ts[sec][name]: ts[sec][name] = v`. -/
def setParamIfAbsentOrBlank (ts : Specs) (sec name : String) (v : PVal) :
    Specs :=
  match lookupA (getSec ts sec) name with
  | some old => if old.truthy then ts else setParam ts sec name v
  | none => setParam ts sec name v

def pvalStr : PVal → String
  | .s v => v
  | .cm _ => ""

def rangeFrom1 (n : Nat) : List Nat := (List.range n).drop 1

/-- `fc.replace('F', '')` -/
def stripF (fc : String) : String := String.mk (fc.data.filter (· ≠ 'F'))

/-- Colour coding per fiber count (main.py lines 464-473). -/
def ppColour (detected : List String) (st : LoopSt)
    (page_text : String) : LoopSt :=
  detected.foldl (fun s fc =>
    let numeric := match firstDigitRun fc.data with
      | some run => natOfDigits run
      | none => 0
    let color_coding := extract_color_coding_from_text page_text (some numeric)
    if !color_coding.isEmpty then
      let rec0 := getRec s.fd fc
      let cc := (lookupA rec0.ts "Colour Coding").getD []
      let cc2 := color_coding.foldl (fun m p => setA m p.1 (PVal.cm p.2)) cc
      let rec1 := { rec0 with ts := (setA (ensureSec rec0.ts "Colour Coding") "Colour Coding" cc2) }
      { s with fd := (setRec s.fd fc rec1) }
    else s) st

/-- Structured parameters from text (main.py lines 475-485). -/
def ppTextParams (detected : List String) (st : LoopSt)
    (page_text : String) : LoopSt :=
  let pmtp := extract_parameters_from_text st.pm page_text detected
  let st2 := { st with pm := pmtp.1 }
  let text_parameters := pmtp.2
  if !text_parameters.isEmpty then
    detected.foldl (fun s fc =>
      let rec0 := getRec s.fd fc
      let ts2 := text_parameters.foldl (fun ts secp =>
        let ts := ensureSec ts secp.1
        secp.2.foldl (fun tsx pv =>
          match lookupA (getSec tsx secp.1) pv.1 with
          | some _ => tsx
          | none => setParam tsx secp.1 pv.1 (PVal.s pv.2)) ts) rec0.ts
      { s with fd := setRec s.fd fc { rec0 with ts := ts2 } }) st2
  else st2

/-- Tensile strength with Installation/Operation values (main.py lines
489-501): an unconditional assignment into every variant's record. -/
def ppTensile (detected : List String) (st : LoopSt)
    (page_text : String) : LoopSt :=
  match lookupA ENHANCED_TEXT_PATTERNS "tensile_installation_operation" with
  | some pat =>
    match searchRe pat page_text.data with
    | some m =>
      let installation_val := String.mk ((capGet m.2.2 1).getD [])
      let operation_val := String.mk ((capGet m.2.2 2).getD [])
      let tensile_value :=
        "Installation: " ++ installation_val ++ " Operation: " ++ operation_val
      let param_name := "Max. Tensile Strength"
      let param_section := categorize_parameter st.pm param_name
      let s2 := detected.foldl (fun s fc =>
        let rec0 := getRec s.fd fc
        let rec1 := { rec0 with ts := setParam rec0.ts param_section param_name (PVal.s tensile_value) }
        { s with fd := (setRec s.fd fc rec1) }) st
      let pmB := (add_parameter_if_new s2.pm param_name (some param_section)).1
      { s2 with pm := pmB }
    | none => st
  | none => st

/-- The `enhanced_param_mapping` literal of main.py lines 504-513. -/
def enhanced_param_mapping : List (String × String) := [
  ("crush_resistance", "Max. Crush Resistance"),
  ("impact_resistance", "Impact Resistance"),
  ("impact_strength", "Impact Strength"),
  ("torsion", "Torsion"),
  ("minimum_bend_radius", "Minimum Bend Radius"),
  ("water_penetration", "Water Penetration Test"),
  ("tensile_strength_max", "Max. Tensile Strength"),
  ("max_tensile_strength", "Max. Tensile Strength")]

/-- Other enhanced patterns (main.py lines 503-528): guarded writes. -/
def ppEnhanced (detected : List String) (st : LoopSt)
    (page_text : String) : LoopSt :=
  enhanced_param_mapping.foldl (fun s kv =>
    match lookupA ENHANCED_TEXT_PATTERNS kv.1 with
    | some pat =>
      match searchRe pat page_text.data with
      | some m =>
        let value := clean_parameter_value (String.mk ((capGet m.2.2 1).getD []))
        let param_section := categorize_parameter s.pm kv.2
        let s2 := detected.foldl (fun sx fc =>
          let rec0 := getRec sx.fd fc
          let rec1 := { rec0 with ts := setParamIfAbsentOrBlank rec0.ts param_section kv.2 (PVal.s value) }
          { sx with fd := (setRec sx.fd fc rec1) }) s
        let pmB := (add_parameter_if_new s2.pm kv.2 (some param_section)).1
        { s2 with pm := pmB }
      | none => s
    | none => s) st

/-- The `temp_patterns` literal of main.py lines 531-538. -/
def temp_patterns : List (String × String) := [
  ("environmental_installation", "Installation Temperature"),
  ("environmental_operation", "Operation Temperature"),
  ("environmental_storage", "Storage Temperature"),
  ("installation_temp", "Installation Temperature"),
  ("operation_temp", "Operation Temperature"),
  ("storage_temp", "Storage Temperature")]

/-- Environmental temperatures (main.py lines 530-553): guarded writes. -/
def ppTemps (detected : List String) (st : LoopSt)
    (page_text : String) : LoopSt :=
  temp_patterns.foldl (fun s kv =>
    match lookupA ENHANCED_TEXT_PATTERNS kv.1 with
    | some pat =>
      match searchRe pat page_text.data with
      | some m =>
        let temp_value := clean_parameter_value (String.mk ((capGet m.2.2 1).getD []))
        let param_section := categorize_parameter s.pm kv.2
        let s2 := detected.foldl (fun sx fc =>
          let rec0 := getRec sx.fd fc
          let rec1 := { rec0 with ts := setParamIfAbsentOrBlank rec0.ts param_section kv.2 (PVal.s temp_value) }
          { sx with fd := (setRec sx.fd fc rec1) }) s
        let pmB := (add_parameter_if_new s2.pm kv.2 (some param_section)).1
        { s2 with pm := pmB }
      | none => s
    | none => s) st

/-- Attenuation values with wavelengths (main.py lines 555-567):
write-if-absent. -/
def ppAtten (detected : List String) (st : LoopSt)
    (page_text : String) : LoopSt :=
  match lookupA ENHANCED_TEXT_PATTERNS "attenuation" with
  | some pat =>
    (findAllRe pat page_text.data).foldl (fun s m =>
      let wavelength := String.mk ((capGet m.2.2 1).getD [])
      let value := String.mk ((capGet m.2.2 2).getD [])
      let attenuation_value := "≤ " ++ value ++ " dB/km"
      let param_name := "Attenuation at " ++ wavelength ++ "nm"
      let param_section := categorize_parameter s.pm "Attenuation"
      let s2 := detected.foldl (fun sx fc =>
        let rec0 := getRec sx.fd fc
        let rec1 := { rec0 with ts := setParamIfAbsent rec0.ts param_section param_name (PVal.s attenuation_value) }
        { sx with fd := (setRec sx.fd fc rec1) }) s
      let pmB := (add_parameter_if_new s2.pm param_name (some param_section)).1
      { s2 with pm := pmB }) st
  | none => st

/-- Mode field diameter values with wavelengths (main.py lines 569-581):
write-if-absent. -/
def ppMfd (detected : List String) (st : LoopSt)
    (page_text : String) : LoopSt :=
  match lookupA ENHANCED_TEXT_PATTERNS "mode_field_diameter" with
  | some pat =>
    (findAllRe pat page_text.data).foldl (fun s m =>
      let wavelength := String.mk ((capGet m.2.2 1).getD [])
      let value := String.mk ((capGet m.2.2 2).getD [])
      let mfd_value := String.mk (stripPy value.data) ++ " µm"
      let param_name := "MFD at " ++ wavelength ++ "nm"
      let param_section := categorize_parameter s.pm "Mode Field Diameter"
      let s2 := detected.foldl (fun sx fc =>
        let rec0 := getRec sx.fd fc
        let rec1 := { rec0 with ts := setParamIfAbsent rec0.ts param_section param_name (PVal.s mfd_value) }
        { sx with fd := (setRec sx.fd fc rec1) }) s
      let pmB := (add_parameter_if_new s2.pm param_name (some param_section)).1
      { s2 with pm := pmB }) st
  | none => st

/-- The text-driven part of the page loop (main.py lines 461-581),
executed when `page.extract_text()` is truthy: the stages above run in
source order, each threading the loop state. -/
def processPageText (detected : List String) (st : LoopSt)
    (page_text : String) : LoopSt :=
  ppMfd detected
    (ppAtten detected
      (ppTemps detected
        (ppEnhanced detected
          (ppTensile detected
            (ppTextParams detected
              (ppColour detected st page_text) page_text) page_text)
          page_text) page_text) page_text) page_text

/-- `normalize_parameter_name` (main.py lines 638-664). -/
def normalize_parameter_name (name : String) : String :=
  if name = "" then name
  else
    let normalized := String.mk (titlePy (stripPy name.data))
    let variations : List (String × String) := [
      ("Fiber Core", "Fiber Core"), ("Fibre Core", "Fiber Core"),
      ("Fiber Count", "Fiber Count"), ("Fibre Count", "Fiber Count"),
      ("Od", "OD"), ("I.D", "ID"), ("O.D", "OD"), ("I.D.", "ID"),
      ("O.D.", "OD")]
    match variations.find? (fun v => v.1 = normalized) with
    | some v => v.2
    | none => normalized

def cleanRow (row : List (Option String)) : List String :=
  row.map (fun cell =>
    match cell with
    | none => ""
    | some s => if s = "" then "" else String.mk (stripPy s.data))

/-- `^[a-z]{2}$` of main.py line 821. -/
def lower2P : Re := rcat [.cl .lower, .cl .lower, .eol]

/-- `^[a-z]{2,4}$` of main.py line 832. -/
def lower24P : Re :=
  rcat [.cl .lower, .cl .lower,
    .alt (rcat [.cl .lower, rOpt (.cl .lower)]) .eps, .eol]

/-- One table row (main.py lines 593-933).  `lastFc` is the value of the
Python loop variable `fiber_count` leaked from the earlier
`for fiber_count in detected_fiber_counts` loops, i.e. the last resolved
label; lines 768 and 779 read it outside any such loop. -/
def processTableRow (detected : List String) (lastFc : String) (st : LoopSt)
    (row : List (Option String)) : LoopSt :=
  if row.length < 2 then st
  else
    let cleaned := cleanRow row
    let c0 := cleaned.headD ""
    if c0 = "" || ["parameter", "sl.no.", "sr.no.", "specifications",
        "description", "details", "type", "color", "dimensions"].contains
        (String.mk (lowerL c0.data)) then st
    else if ["fibre count", "fiber count"].any
        (fun w => containsSub (lowerL c0.data) w.data) then
      -- fiber-count header row (lines 607-627)
      let fcm2 := (rangeFrom1 cleaned.length).foldl (fun m col_idx =>
        let cell_value := cleaned.getD col_idx ""
        if cell_value ≠ "" then
          detected.foldl (fun m2 fc =>
            if upperL fc.data = upperL cell_value.data then setA m2 fc col_idx
            else m2) m
        else m) st.fcm
      let fd2 := detected.foldl (fun fd fc =>
        let rec0 := getRec fd fc
        let rec1 := { rec0 with ts := setParam rec0.ts st.currentSection "Fiber Count" (PVal.s (stripF fc)) }
        setRec fd fc rec1) st.fd
      { st with fcm := fcm2, fd := fd2 }
    else
      let row_text := String.mk (joinSep " ".data (cleaned.map String.data))
      let new_section := identify_section st.pm row_text
      let current_section :=
        if new_section ≠ "" && new_section ≠ "General Information" then
          new_section
        else st.currentSection
      let st := { st with currentSection := current_section }
      let parameter_name := normalize_parameter_name c0
      let pnl := lowerL parameter_name.data
      if ["fibre count", "fiber count"].any
          (fun w => containsSub pnl w.data) then st
      else if ["number of fibres per tube", "number of fibers per tube",
          "fibres per tube", "fibers per tube"].any
          (fun w => containsSub pnl w.data) then
        -- fibres-per-tube rows feed fiber_specific_values (lines 672-695)
        detected.foldl (fun s fc =>
          let rec0 := getRec s.fd fc
          let rec1 := { rec0 with ts := ensureSec rec0.ts current_section }
          let s1 := { s with fd := (setRec s.fd fc rec1) }
          match lookupA s1.fcm fc with
          | some col_idx =>
            if col_idx < cleaned.length && cleaned.getD col_idx "" ≠ "" then
              let parameter_value :=
                clean_parameter_value (cleaned.getD col_idx "")
              let cur := (lookupA s1.fsv fc).getD []
              let key := current_section ++ "_" ++ parameter_name
              { s1 with fsv := (setA s1.fsv fc (setA cur key parameter_value)) }
            else s1
          | none => s1) st
      else if ["cable diameter", "cable weight", "number of loose tubes"].any
          (fun w => containsSub pnl w.data) then
        -- per-variant column rows (lines 697-749)
        let s1 := detected.foldl (fun s fc =>
          let parameter_section := categorize_parameter s.pm parameter_name
          let pmB := (add_parameter_if_new s.pm parameter_name
            (some parameter_section)).1
          let s := { s with pm := pmB }
          let rec0 := getRec s.fd fc
          let ts1 := ensureSec rec0.ts parameter_section
          let parameter_value :=
            match lookupA s.fcm fc with
            | some col_idx =>
              if col_idx < cleaned.length && cleaned.getD col_idx "" ≠ "" then
                clean_parameter_value (cleaned.getD col_idx "")
              else if cleaned.length > 1 && cleaned.getD 1 "" ≠ "" then
                clean_parameter_value (cleaned.getD 1 "")
              else ""
            | none =>
              if cleaned.length > 1 && cleaned.getD 1 "" ≠ "" then
                clean_parameter_value (cleaned.getD 1 "")
              else ""
          let rec1 := { rec0 with ts := setParam ts1 parameter_section parameter_name (PVal.s parameter_value) }
          { s with fd := (setRec s.fd fc rec1) }) st
        detected.foldl (fun s fc =>
          let rec0 := getRec s.fd fc
          let ts1 := ensureSec rec0.ts current_section
          let fallbackPerTube :=
            ["fibres per tube", "fibers per tube"].any
              (fun w => containsSub pnl w.data)
          let parameter_value :=
            match lookupA s.fcm fc with
            | some col_idx =>
              if col_idx < cleaned.length && cleaned.getD col_idx "" ≠ "" then
                clean_parameter_value (cleaned.getD col_idx "")
              else if fallbackPerTube then stripF fc
              else if cleaned.length > 1 && cleaned.getD 1 "" ≠ "" then
                clean_parameter_value (cleaned.getD 1 "")
              else ""
            | none =>
              if fallbackPerTube then stripF fc
              else if cleaned.length > 1 && cleaned.getD 1 "" ≠ "" then
                clean_parameter_value (cleaned.getD 1 "")
              else ""
          let rec1 := { rec0 with ts := setParam ts1 current_section parameter_name (PVal.s parameter_value) }
          { s with fd := (setRec s.fd fc rec1) }) s1
      else
        -- general parameter handling (lines 751-933)
        let fiber_columns := (rangeFrom1 cleaned.length).foldl
          (fun (m : List (String × Nat)) col_idx =>
            let cell_value := cleaned.getD col_idx ""
            if cell_value ≠ "" then
              detected.foldl (fun m2 fc =>
                if containsSub (upperL cell_value.data) (upperL fc.data)
                    || upperL cell_value.data = upperL fc.data then
                  setA m2 fc col_idx
                else m2) m
            else m) []
        let headerSkip :=
          (!fiber_columns.isEmpty && (lookupA fiber_columns lastFc).isSome)
            && detected.any (fun fc => cleaned.contains fc)
        if headerSkip then st
        else
          -- Method 1 (lines 775-781)
          let data_columns := (rangeFrom1 cleaned.length).filterMap (fun i =>
            let c := cleaned.getD i ""
            if c ≠ "" && !detected.any
                (fun fc => containsSub (upperL c.data) (upperL fc.data)) then
              some c
            else none)
          let pv1 : Option String :=
            if data_columns.length = detected.length then
              let fiber_index := detected.indexOf lastFc
              if fiber_index < data_columns.length then
                some (data_columns.getD fiber_index "")
              else none
            else none
          -- Method 2 (lines 783-823)
          let pv2 : Option String :=
            match pv1 with
            | some v => some v
            | none =>
              if ["tensile", "strength", "attenuation", "dispersion",
                  "diameter", "wavelength", "bend"].any
                  (fun k => containsSub pnl k.data) then
                let value_parts := (rangeFrom1 cleaned.length).filterMap
                  (fun i =>
                    let c := cleaned.getD i ""
                    if c ≠ "" && c ≠ "---" && c ≠ "N/A" && c ≠ "n/a" then
                      let cc := stripPy c.data
                      if !cc.isEmpty then some cc else none
                    else none)
                if !value_parts.isEmpty then
                  some (String.mk (stripPy
                    (subAllRe rWsPlus [' '] (joinSep " ".data value_parts))))
                else none
              else
                let predA (c : String) : Bool :=
                  (c.data.any isDigitPy) &&
                    (["mm", "km", "db", "nm", "ps", "µm", "kg", "n", "j",
                      "°c", "kn"].any
                        (fun u => containsSub (lowerL c.data) u.data)
                      || ['±', '≤', '≥', '%', '-', '/'].any
                        (fun ch => c.data.contains ch))
                let predB (c : String) : Bool :=
                  c.data.length > 2
                    && !(["color", "colour", "type"].contains
                      (String.mk (lowerL c.data)))
                    && !(matchRe lower2P (lowerL c.data)).isSome
                ((rangeFrom1 cleaned.length).filterMap (fun i =>
                  let c := cleaned.getD i ""
                  if c ≠ "" && (predA c || predB c) then some c else none)).head?
          -- Method 3 (lines 825-837), which overrides Methods 1-2
          let pvColor : Option PVal :=
            if ["color", "colour"].any (fun w => containsSub pnl w.data) then
              let color_cells := (rangeFrom1 cleaned.length).filterMap (fun i =>
                let c := cleaned.getD i ""
                if c ≠ "" && c.data.length ≤ 4
                    && (matchRe lower24P (lowerL c.data)).isSome then some c
                else none)
              if !color_cells.isEmpty then
                some (PVal.cm (parse_color_sequence
                  (String.mk (joinSep " ".data (color_cells.map String.data)))))
              else none
            else none
          -- Method 4 (lines 839-845)
          let parameter_value : Option PVal :=
            match pvColor with
            | some d => some d
            | none =>
              match pv2 with
              | some v => some (PVal.s v)
              | none =>
                ((rangeFrom1 cleaned.length).filterMap (fun i =>
                  let c := cleaned.getD i ""
                  if c ≠ "" && !(["---", "n/a", "na"].contains
                      (String.mk (lowerL c.data))) then some (PVal.s c)
                  else none)).head?
          -- storage (lines 847-933)
          match parameter_value with
          | none => st
          | some pval =>
            let joined := upperL (joinSep " ".data (cleaned.map String.data))
            let rowHasFc := detected.any (fun fc => containsSub joined fc.data)
            let local_fiber_values :=
              if rowHasFc then
                (rangeFrom1 cleaned.length).foldl
                  (fun (m : List (String × Nat × String)) col_idx =>
                    let cell_value := cleaned.getD col_idx ""
                    if cell_value ≠ "" then
                      detected.foldl (fun m2 fc =>
                        if containsSub (upperL cell_value.data) fc.data
                            || containsSub fc.data (upperL cell_value.data) then
                          setA m2 fc (col_idx, cell_value)
                        else m2) m
                    else m) []
              else []
            if !local_fiber_values.isEmpty then
              let st := { st with cmG := local_fiber_values }
              if ["fibre count", "fiber count"].any
                  (fun w => containsSub pnl w.data) then
                -- unreachable in practice: such rows were dispatched above
                detected.foldl (fun s fc =>
                  let rec0 := getRec s.fd fc
                  let rec1 := { rec0 with ts := setParam rec0.ts current_section parameter_name (PVal.s (stripF fc)) }
                  { s with fd := (setRec s.fd fc rec1) }) st
              else st
            else if !st.cmG.isEmpty then
              -- values through the module-global COLUMN_MAPPINGS (lines 882-904)
              detected.foldl (fun s fc =>
                if ["fibre colour", "fiber colour", "colour", "color"].any
                    (fun w => containsSub pnl w.data) then s
                else
                  let pr := ensure_parameter_exists s.pm parameter_name
                    (some (pvalStr pval))
                  let s := { s with pm := pr.1 }
                  let parameter_section := pr.2
                  let rec0 := getRec s.fd fc
                  match lookupA s.cmG fc with
                  | some ci =>
                    if ci.1 < cleaned.length then
                      let specific_value :=
                        if cleaned.getD ci.1 "" ≠ "" then
                          clean_parameter_value (cleaned.getD ci.1 "")
                        else clean_parameter_value (pvalStr pval)
                      let rec1 := { rec0 with ts := setParam rec0.ts parameter_section parameter_name (PVal.s specific_value) }
                      { s with fd := (setRec s.fd fc rec1) }
                    else s
                  | none =>
                    let rec1 := { rec0 with ts := setParam rec0.ts parameter_section parameter_name (PVal.s (clean_parameter_value (pvalStr pval))) }
                    { s with fd := (setRec s.fd fc rec1) }) st
            else
              -- no column mappings: shared value (lines 905-933)
              detected.foldl (fun s fc =>
                if ["fibre colour", "fiber colour", "colour", "color"].any
                    (fun w => containsSub pnl w.data) then s
                else
                  let pr := ensure_parameter_exists s.pm parameter_name
                    (some (pvalStr pval))
                  let s := { s with pm := pr.1 }
                  let parameter_section := pr.2
                  let rec0 := getRec s.fd fc
                  let existing_sections := rec0.ts.filterMap (fun secp =>
                    if (lookupA secp.2 parameter_name).isSome then some secp.1
                    else none)
                  if !existing_sections.contains parameter_section then
                    let ts1 := match pval with
                      | PVal.cm _ =>
                        setParam rec0.ts "Colour Coding" parameter_name pval
                      | PVal.s v =>
                        setParam rec0.ts parameter_section parameter_name
                          (PVal.s (clean_parameter_value v))
                    let ts2 := existing_sections.foldl (fun ts sec =>
                      if sec ≠ parameter_section then
                        setA ts sec (eraseA (getSec ts sec) parameter_name)
                      else ts) ts1
                    { s with fd := setRec s.fd fc { rec0 with ts := ts2 } }
                  else s) st

/-- One page of the main loop (main.py lines 451-933). -/
def processPage (detected : List String) (lastFc : String) (st : LoopSt)
    (pageIdx : Nat) (page : Page) : LoopSt :=
  let text_content := extract_text_content page.text
  let st1 := detected.foldl (fun s fc =>
    let rec0 := getRec s.fd fc
    let rec1 := { rec0 with dtc := (setA rec0.dtc ("Page_" ++ toString pageIdx) text_content) }
    { s with fd := (setRec s.fd fc rec1) }) st
  let st2 := match page.text with
    | some t => if t ≠ "" then processPageText detected st1 t else st1
    | none => st1
  page.tables.foldl (fun s table =>
    if table.length < 2 then s
    else table.foldl (fun s2 row => processTableRow detected lastFc s2 row) s)
    st2

/-- The record update of the page loop's text-content pass specialized to
an empty content list (the form it takes on an all-whitespace page). -/
def pageDtcStep (key : String) (s : LoopSt) (fc : String) : LoopSt :=
  let rec0 := getRec s.fd fc
  let rec1 := { rec0 with dtc := setA rec0.dtc key [] }
  { s with fd := setRec s.fd fc rec1 }

/-- `key.split('_', 1)` applied when `'_' in key` (main.py lines 941-946). -/
def splitFirstUnderscore (s : String) : Option (String × String) :=
  if s.data.contains '_' then
    some (String.mk (s.data.takeWhile (· ≠ '_')),
      String.mk ((s.data.dropWhile (· ≠ '_')).tail))
  else none

/-- One section of the reconciliation scan (main.py lines 950-963): keep
the parameters whose category is the section itself and queue the others
under their correct section. -/
def reconcilePhase1Step (pm : PM)
    (acc : Specs × List (String × List (String × PVal)))
    (secp : String × List (String × PVal)) :
    Specs × List (String × List (String × PVal)) :=
  let keep := secp.2.filter
    (fun p => categorize_parameter pm p.1 = secp.1)
  let moved := secp.2.filter
    (fun p => categorize_parameter pm p.1 ≠ secp.1)
  let moves2 := moved.foldl (fun mv p =>
    let correct := categorize_parameter pm p.1
    setA mv correct (setA ((lookupA mv correct).getD []) p.1 p.2)) acc.2
  (acc.1 ++ [(secp.1, keep)], moves2)

/-- One queued insertion of the reconciliation pass (main.py lines
968-971): first writer wins. -/
def reconcileInsert (s : String) (sp : Specs) (pv : String × PVal) :
    Specs :=
  match lookupA (getSec sp s) pv.1 with
  | some _ => sp
  | none => setA sp s ((getSec sp s) ++ [pv])

/-- The closing reconciliation pass (main.py lines 948-972): move every
parameter whose `categorize_parameter` section differs from where it is
stored, inserting into the correct section only when that section does not
already hold the name. -/
def reconcile (pm : PM) (specs : Specs) : Specs :=
  let phase1 := specs.foldl (reconcilePhase1Step pm) ([], [])
  phase1.2.foldl (fun specs2 mvp =>
    mvp.2.foldl (reconcileInsert mvp.1) (ensureSec specs2 mvp.1)) phase1.1

/-- The accumulated candidate list of main.py lines 390-421: filename
labels first, then the construction-arithmetic label, then corroborated
text labels (before the order-preserving dedup of lines 423-428). -/
def preDedupCounts (filename_fiber_counts text_detected_counts : List String)
    (calculated_fiber_count : Option String) : List String :=
  let detected1 := filename_fiber_counts
  let detected2 :=
    match calculated_fiber_count with
    | some calcFc =>
      if !detected1.contains calcFc then
        if detected1.isEmpty then detected1 ++ [calcFc]
        else if VALID_FIBER_COUNTS.contains (natOfDigits (stripF calcFc).data)
          then detected1 ++ [calcFc]
        else detected1
      else detected1
    | none => detected1
  text_detected_counts.foldl (fun acc fc =>
    if !acc.contains fc then
      if !filename_fiber_counts.isEmpty then
        if filename_fiber_counts.contains fc then acc ++ [fc] else acc
      else if VALID_FIBER_COUNTS.contains (natOfDigits (stripF fc).data) then
        acc ++ [fc]
      else acc
    else acc) detected2

/-- The order-preserving de-duplication of main.py lines 423-428. -/
def dedupFirst (l : List String) : List String :=
  l.foldl (fun acc fc => if acc.contains fc then acc else acc ++ [fc]) []

/-- Steps 1-5 of `extract_grouped_data` (main.py lines 368-438): the
fiber-count resolution cascade. -/
def detect_fiber_counts (pdf_filename all_text_content : String)
    (tables : List (List (List (Option String)))) : List String :=
  let filename_fiber_counts :=
    extract_primary_fiber_count_from_filename pdf_filename
  let text_detected_counts := extract_fiber_counts_from_text all_text_content
  let calculated_fiber_count := calculate_fiber_count_from_construction tables
  let unique_counts := dedupFirst (preDedupCounts filename_fiber_counts
    text_detected_counts calculated_fiber_count)
  let detected4 :=
    if unique_counts.isEmpty then text_detected_counts else unique_counts
  if detected4.isEmpty then ["24F"] else detected4

structure ExtResult where
  fibreData : List (String × Record)
  detected : List String
  pm : PM
  columnMappings : List (String × Nat × String)

/-- `all_text_content` (main.py lines 360-366): the concatenation of the
non-empty page texts, each followed by a newline. -/
def docAllText (pages : List Page) : String :=
  pages.foldl (fun acc p =>
    match p.text with
    | some t => if t ≠ "" then acc ++ t ++ "\n" else acc
    | none => acc) ""

/-- The concatenation of every page's tables (main.py line 441 ff. runs
per page; the fiber-count cascade of lines 368-438 sees them all). -/
def docTables (pages : List Page) : List (List (List (Option String))) :=
  pages.foldl (fun acc p => acc ++ p.tables) []

/-- `extract_grouped_data` (main.py lines 346-978).  `pdf_filename` is
`os.path.basename(pdf_path)`; `pm0` is the registry state at call time and
`cm0` the module-global `COLUMN_MAPPINGS` left by earlier documents. -/
def extract_grouped_data (pm0 : PM) (cm0 : List (String × Nat × String))
    (pdf_filename : String) (pages : List Page) : ExtResult :=
  let all_text_content := docAllText pages
  let tables := docTables pages
  let detected_fiber_counts :=
    detect_fiber_counts pdf_filename all_text_content tables
  let fibre_data0 : List (String × Record) := detected_fiber_counts.foldl
    (fun acc fc => setA acc fc ⟨[], []⟩) []
  let lastFc := detected_fiber_counts.getLastD ""
  let st0 : LoopSt :=
    ⟨pm0, fibre_data0, "General Information", [], [], cm0⟩
  let afterPages := pages.enum.foldl (fun s ip =>
    processPage detected_fiber_counts lastFc s (ip.1 + 1) ip.2) st0
  let fdA := afterPages.fsv.foldl (fun fd fcv =>
    fcv.2.foldl (fun fd2 kv =>
      match splitFirstUnderscore kv.1 with
      | some sp =>
        let rec0 := getRec fd2 fcv.1
        setRec fd2 fcv.1
          { rec0 with ts := setParam rec0.ts sp.1 sp.2 (PVal.s kv.2) }
      | none => fd2) fd) afterPages.fd
  let fdB := detected_fiber_counts.foldl (fun fd fc =>
    let rec0 := getRec fd fc
    setRec fd fc { rec0 with ts := reconcile afterPages.pm rec0.ts }) fdA
  ⟨fdB, detected_fiber_counts, afterPages.pm, afterPages.cmG⟩

/-! ## The `/extract` endpoint core (`extract_pdf`, main.py lines 982-1032),
without the HTTP and temporary-file plumbing. -/

structure Metadata where
  source_file : String
  fiber_type : String
  processing_date : String
  detected_fiber_counts : List String
deriving DecidableEq, Repr

structure OutputRecord where
  metadata : Metadata
  document_content : List (String × List (String × String))
  technical_specifications : Specs
deriving DecidableEq, Repr

/-- Lines 999-1021: one output record per detected fiber count that has
meaningful data. -/
def build_results (filename : String) (grouped : List (String × Record))
    (detected : List String) : List OutputRecord :=
  detected.filterMap (fun fc =>
    let rec0 := (lookupA grouped fc).getD ⟨[], []⟩
    let has_table_data := rec0.ts.any (fun secp => !secp.2.isEmpty)
    let has_text_data := rec0.dtc.any (fun p => !p.2.isEmpty)
    if has_table_data || has_text_data then
      some ⟨⟨filename, fc, "2025-08-11", detected⟩, rec0.dtc, rec0.ts⟩
    else none)

inductive ApiResult where
  | ok (results : List OutputRecord)
  | errorNoData
deriving DecidableEq, Repr

/-- The `/extract` endpoint (lines 999-1027): empty results give the
status-400 "No meaningful data" error response. -/
def extract_pdf (pm0 : PM) (cm0 : List (String × Nat × String))
    (filename : String) (pages : List Page) : ApiResult :=
  let r := extract_grouped_data pm0 cm0 filename pages
  let results := build_results filename r.fibreData r.detected
  if results.isEmpty then .errorNoData else .ok results

/-! ## Generic lemmas about the association-list and fold combinators. -/

theorem mem_setA {α : Type} {q : String × α} :
    ∀ {l : List (String × α)} {k : String} {v : α},
      q ∈ setA l k v → q = (k, v) ∨ q ∈ l := by
  intro l
  induction l with
  | nil =>
    intro k v h
    simp [setA] at h
    exact Or.inl h
  | cons p t ih =>
    intro k v h
    simp only [setA] at h
    split at h
    · rcases List.mem_cons.mp h with h1 | h1
      · exact Or.inl h1
      · exact Or.inr (List.mem_cons_of_mem _ h1)
    · rcases List.mem_cons.mp h with h1 | h1
      · exact Or.inr (h1 ▸ List.mem_cons_self _ _)
      · rcases ih h1 with h2 | h2
        · exact Or.inl h2
        · exact Or.inr (List.mem_cons_of_mem _ h2)

theorem lookupA_mem {α : Type} :
    ∀ {l : List (String × α)} {k : String} {v : α},
      lookupA l k = some v → (k, v) ∈ l := by
  intro l
  induction l with
  | nil => intro k v h; simp [lookupA] at h
  | cons p t ih =>
    intro k v h
    simp only [lookupA] at h
    split at h
    · rename_i hk
      simp at h
      have hp : (k, v) = p := by
        cases p with
        | mk a b =>
          simp at hk h
          simp [hk, h]
      rw [hp]
      exact List.mem_cons_self _ _
    · exact List.mem_cons_of_mem _ (ih h)

theorem lookupA_setA_self {α : Type} :
    ∀ (l : List (String × α)) (k : String) (v : α),
      lookupA (setA l k v) k = some v := by
  intro l
  induction l with
  | nil => intro k v; simp [setA, lookupA]
  | cons p t ih =>
    intro k v
    simp only [setA]
    split
    · simp [lookupA]
    · rename_i hk
      simp only [lookupA]
      rw [if_neg hk]
      exact ih k v

/-- A fold whose step never empties a non-empty accumulator keeps it
non-empty. -/
theorem foldl_ne_nil {α β : Type} (f : List α → β → List α)
    (hf : ∀ acc x, acc ≠ [] → f acc x ≠ []) :
    ∀ (l : List β) (acc : List α), acc ≠ [] → l.foldl f acc ≠ []
  | [], _, h => h
  | x :: t, acc, h => foldl_ne_nil f hf t (f acc x) (hf acc x h)

/-- Elements produced by a fold either were in the accumulator or satisfy
the property every step's insertions satisfy. -/
theorem mem_foldl_of_step {α β : Type} (f : List α → β → List α)
    (P : α → Prop) (hf : ∀ acc b x, x ∈ f acc b → x ∈ acc ∨ P x) :
    ∀ (l : List β) (acc : List α) (x : α), x ∈ l.foldl f acc → x ∈ acc ∨ P x := by
  intro l
  induction l with
  | nil => intro acc x h; exact Or.inl h
  | cons b t ih =>
    intro acc x h
    rcases ih (f acc b) x h with h1 | h1
    · exact hf acc b x h1
    · exact Or.inr h1

/-- A fold whose step preserves `Nodup` preserves `Nodup`. -/
theorem foldl_nodup {α β : Type} (f : List α → β → List α)
    (hf : ∀ acc b, acc.Nodup → (f acc b).Nodup) :
    ∀ (l : List β) (acc : List α), acc.Nodup → (l.foldl f acc).Nodup := by
  intro l
  induction l with
  | nil => intro acc h; exact h
  | cons b t ih => intro acc h; exact ih (f acc b) (hf acc b h)

theorem mem_insertSet {l : List String} {x y : String}
    (h : y ∈ insertSet l x) : y ∈ l ∨ y = x := by
  unfold insertSet at h
  split at h
  · exact Or.inl h
  · rcases List.mem_append.mp h with h1 | h1
    · exact Or.inl h1
    · exact Or.inr (List.mem_singleton.mp h1)

theorem insertSet_nodup {l : List String} {x : String} (h : l.Nodup) :
    (insertSet l x).Nodup := by
  unfold insertSet
  split
  · exact h
  · rename_i hc
    refine List.nodup_append.mpr ⟨h, List.nodup_singleton x, ?_⟩
    intro a ha hb
    rw [List.mem_singleton.mp hb] at ha
    exact hc (List.elem_eq_true_of_mem ha)

theorem mem_insertDesc {x y : Nat} :
    ∀ {l : List Nat}, y ∈ insertDesc x l → y = x ∨ y ∈ l := by
  intro l
  induction l with
  | nil => intro h; simp [insertDesc] at h; exact Or.inl h
  | cons z t ih =>
    intro h
    simp only [insertDesc] at h
    split at h
    · rcases List.mem_cons.mp h with h1 | h1
      · exact Or.inl h1
      · exact Or.inr h1
    · rcases List.mem_cons.mp h with h1 | h1
      · exact Or.inr (h1 ▸ List.mem_cons_self _ _)
      · rcases ih h1 with h2 | h2
        · exact Or.inl h2
        · exact Or.inr (List.mem_cons_of_mem _ h2)

theorem mem_sortDesc {x : Nat} :
    ∀ {l : List Nat}, x ∈ sortDesc l → x ∈ l := by
  intro l
  induction l with
  | nil => intro h; simp [sortDesc] at h
  | cons z t ih =>
    intro h
    simp only [sortDesc, List.foldr] at h
    rcases mem_insertDesc h with h1 | h1
    · exact h1 ▸ List.mem_cons_self _ _
    · exact List.mem_cons_of_mem _ (ih h1)

/-- Variant of `mem_foldl_of_step` where the step property may use
membership of the folded element in the folded list. -/
theorem mem_foldl_of_step_mem {α β : Type} (f : List α → β → List α)
    (P : α → Prop) :
    ∀ (l : List β),
      (∀ acc b, b ∈ l → ∀ x, x ∈ f acc b → x ∈ acc ∨ P x) →
      ∀ (acc : List α) (x : α), x ∈ l.foldl f acc → x ∈ acc ∨ P x := by
  intro l
  induction l with
  | nil => intro _ acc x h; exact Or.inl h
  | cons b t ih =>
    intro hf acc x h
    rcases ih (fun acc2 b2 hb2 => hf acc2 b2 (List.mem_cons_of_mem _ hb2))
        (f acc b) x h with h1 | h1
    · exact hf acc b (List.mem_cons_self _ _) x h1
    · exact Or.inr h1

/-! ## Properties of the fiber-count resolution cascade (claims C1, C2). -/

theorem mem_validLabelsDesc {counts : List Nat} {l : String}
    (h : l ∈ validLabelsDesc counts) :
    ∃ c ∈ VALID_FIBER_COUNTS, l = toString c ++ "F" := by
  unfold validLabelsDesc at h
  rcases List.mem_map.mp h with ⟨c, hc, he⟩
  rcases List.mem_filter.mp (mem_sortDesc hc) with ⟨_, hcv⟩
  exact ⟨c, List.mem_of_elem_eq_true hcv, he.symm⟩

theorem extract_primary_allowlisted {fn l : String}
    (h : l ∈ extract_primary_fiber_count_from_filename fn) :
    ∃ c ∈ VALID_FIBER_COUNTS, l = toString c ++ "F" := by
  unfold extract_primary_fiber_count_from_filename at h
  simp only at h
  split at h
  · rename_i r heq
    split at heq
    · split at heq
      · split at heq
        · rcases Option.some.inj heq with he
          rw [← he] at h
          exact mem_validLabelsDesc h
        · exact absurd heq (by simp)
      · exact absurd heq (by simp)
    · exact absurd heq (by simp)
  · split at h
    · exact mem_validLabelsDesc h
    · simp at h

theorem extract_text_counts_allowlisted {t x : String}
    (h : x ∈ extract_fiber_counts_from_text t) :
    ∃ c ∈ VALID_FIBER_COUNTS, x = toString c ++ "F" := by
  unfold extract_fiber_counts_from_text at h
  rcases mem_foldl_of_step _
      (fun y => ∃ c ∈ VALID_FIBER_COUNTS, y = toString c ++ "F")
      (fun acc m x hx => by
        rcases mem_foldl_of_step _
            (fun y => ∃ c ∈ VALID_FIBER_COUNTS, y = toString c ++ "F")
            (fun acc2 m2 x2 hx2 => by
              dsimp only at hx2
              split at hx2
              · rename_i hvalid
                rcases mem_insertSet hx2 with h1 | h1
                · exact Or.inl h1
                · exact Or.inr ⟨_, List.mem_of_elem_eq_true hvalid, h1⟩
              · exact Or.inl hx2) _ _ _ hx with h1 | h1
        · exact Or.inl h1
        · exact Or.inr h1) _ _ _ h with h1 | h1
  · rcases mem_foldl_of_step _
        (fun y => ∃ c ∈ VALID_FIBER_COUNTS, y = toString c ++ "F")
        (fun acc pat x hx => by
          rcases mem_foldl_of_step _
              (fun y => ∃ c ∈ VALID_FIBER_COUNTS, y = toString c ++ "F")
              (fun acc2 m x2 hx2 => by
                dsimp only at hx2
                split at hx2
                · rename_i hvalid
                  rcases mem_insertSet hx2 with h2 | h2
                  · exact Or.inl h2
                  · exact Or.inr ⟨_, List.mem_of_elem_eq_true hvalid, h2⟩
                · exact Or.inl hx2) _ _ _ hx with h2 | h2
          · exact Or.inl h2
          · exact Or.inr h2) _ _ _ h1 with h2 | h2
    · simp at h2
    · exact h2
  · exact h1

theorem extract_text_counts_nodup (t : String) :
    (extract_fiber_counts_from_text t).Nodup := by
  unfold extract_fiber_counts_from_text
  apply foldl_nodup _ (fun acc m hnd => ?_) _ _ ?base
  case base =>
    apply foldl_nodup _ (fun acc pat hnd => ?_) _ _ List.nodup_nil
    apply foldl_nodup _ (fun acc2 m2 hnd2 => ?_) _ _ hnd
    dsimp only
    split
    · exact insertSet_nodup hnd2
    · exact hnd2
  · apply foldl_nodup _ (fun acc2 m2 hnd2 => ?_) _ _ hnd
    dsimp only
    split
    · exact insertSet_nodup hnd2
    · exact hnd2

theorem calculate_allowlisted
    {tables : List (List (List (Option String)))} {l : String}
    (h : calculate_fiber_count_from_construction tables = some l) :
    ∃ c ∈ VALID_FIBER_COUNTS, l = toString c ++ "F" := by
  unfold calculate_fiber_count_from_construction at h
  simp only at h
  split at h
  · split at h
    · split at h
      · rename_i htot
        rcases Option.some.inj h with he
        exact ⟨_, List.mem_of_elem_eq_true htot, he.symm⟩
      · exact absurd h (by simp)
    · exact absurd h (by simp)
  · exact absurd h (by simp)

theorem dedupFirst_eq_foldl_insertSet (l : List String) :
    dedupFirst l = l.foldl insertSet [] := rfl

theorem dedupFirst_mem {l : List String} {x : String}
    (h : x ∈ dedupFirst l) : x ∈ l := by
  rw [dedupFirst_eq_foldl_insertSet] at h
  rcases mem_foldl_of_step_mem insertSet (fun y => y ∈ l) l
      (fun acc b hb x hx => by
        rcases mem_insertSet hx with h1 | h1
        · exact Or.inl h1
        · exact Or.inr (h1 ▸ hb)) [] x h with h1 | h1
  · simp at h1
  · exact h1

theorem dedupFirst_nodup (l : List String) : (dedupFirst l).Nodup := by
  rw [dedupFirst_eq_foldl_insertSet]
  exact foldl_nodup insertSet (fun acc b h => insertSet_nodup h) l []
    List.nodup_nil

theorem insertSet_ne_nil (acc : List String) (x : String) (h : acc ≠ []) :
    insertSet acc x ≠ [] := by
  unfold insertSet
  split
  · exact h
  · simp

theorem dedupFirst_ne_nil {l : List String} (h : l ≠ []) :
    dedupFirst l ≠ [] := by
  rw [dedupFirst_eq_foldl_insertSet]
  cases l with
  | nil => exact absurd rfl h
  | cons a t =>
    have h1 : insertSet [] a = [a] := by simp [insertSet]
    simp only [List.foldl, h1]
    exact foldl_ne_nil insertSet insertSet_ne_nil t [a] (by simp)

theorem foldl_insertSet_sublist :
    ∀ (l acc : List String), List.Sublist (l.foldl insertSet acc) (acc ++ l) := by
  intro l
  induction l with
  | nil => intro acc; simp
  | cons x t ih =>
    intro acc
    simp only [List.foldl]
    refine (ih (insertSet acc x)).trans ?_
    unfold insertSet
    split
    · exact List.append_sublist_append_left acc |>.mpr (List.sublist_cons_self x t) |>.trans (by simp)
    · rw [List.append_assoc]
      simp

theorem dedupFirst_sublist (l : List String) :
    List.Sublist (dedupFirst l) l := by
  rw [dedupFirst_eq_foldl_insertSet]
  simpa using foldl_insertSet_sublist l []

theorem mem_calcStage {F : List String} {calcOpt : Option String} {x : String}
    (h : x ∈
      (match calcOpt with
      | some calcFc =>
        if !F.contains calcFc then
          if F.isEmpty then F ++ [calcFc]
          else if VALID_FIBER_COUNTS.contains (natOfDigits (stripF calcFc).data)
            then F ++ [calcFc]
          else F
        else F
      | none => F)) :
    x ∈ F ∨ calcOpt = some x := by
  rcases calcOpt with _ | c
  · exact Or.inl h
  · dsimp only at h
    split at h
    · split at h
      · rcases List.mem_append.mp h with h1 | h1
        · exact Or.inl h1
        · exact Or.inr (congrArg some (List.mem_singleton.mp h1).symm)
      · split at h
        · rcases List.mem_append.mp h with h1 | h1
          · exact Or.inl h1
          · exact Or.inr (congrArg some (List.mem_singleton.mp h1).symm)
        · exact Or.inl h
    · exact Or.inl h

theorem mem_preDedup_cases {F T : List String} {calcOpt : Option String}
    {x : String} (h : x ∈ preDedupCounts F T calcOpt) :
    x ∈ F ∨ calcOpt = some x ∨ x ∈ T := by
  unfold preDedupCounts at h
  simp only at h
  rcases mem_foldl_of_step_mem _ (fun y => y ∈ T) T
      (fun acc b hb x hx => by
        split at hx
        · split at hx
          · split at hx
            · rcases List.mem_append.mp hx with h1 | h1
              · exact Or.inl h1
              · exact Or.inr ((List.mem_singleton.mp h1) ▸ hb)
            · exact Or.inl hx
          · split at hx
            · rcases List.mem_append.mp hx with h1 | h1
              · exact Or.inl h1
              · exact Or.inr ((List.mem_singleton.mp h1) ▸ hb)
            · exact Or.inl hx
        · exact Or.inl hx) _ _ h with h1 | h1
  · rcases mem_calcStage h1 with h2 | h2
    · exact Or.inl h2
    · exact Or.inr (Or.inl h2)
  · exact Or.inr (Or.inr h1)

theorem mem_preDedup_of_filename_nonempty {F T : List String}
    {calcOpt : Option String} {x : String} (hF : F ≠ [])
    (h : x ∈ preDedupCounts F T calcOpt) :
    x ∈ F ∨ calcOpt = some x := by
  unfold preDedupCounts at h
  simp only at h
  rcases mem_foldl_of_step _ (fun y => y ∈ F)
      (fun acc b x hx => by
        split at hx
        · split at hx
          · rename_i hne
            split at hx
            · rename_i hFb
              rcases List.mem_append.mp hx with h1 | h1
              · exact Or.inl h1
              · exact Or.inr ((List.mem_singleton.mp h1) ▸
                  List.mem_of_elem_eq_true hFb)
            · exact Or.inl hx
          · rename_i hne
            exact absurd (by
              cases hF2 : F.isEmpty with
              | true => exact absurd (List.isEmpty_iff.mp hF2) hF
              | false => simp [hF2]) hne
        · exact Or.inl hx) _ _ _ h with h1 | h1
  · exact mem_calcStage h1
  · exact Or.inl h1

theorem preDedup_ne_nil {F T : List String} {calcOpt : Option String}
    (hF : F ≠ []) : preDedupCounts F T calcOpt ≠ [] := by
  unfold preDedupCounts
  simp only
  apply foldl_ne_nil _ (fun acc x hacc => ?_) T _ ?base
  case base =>
    rcases calcOpt with _ | c
    · exact hF
    · dsimp only
      split
      · split
        · simp
        · split
          · simp
          · exact hF
      · exact hF
  · dsimp only
    split
    · split
      · split
        · simp [hacc]
        · exact hacc
      · split
        · simp [hacc]
        · exact hacc
    · exact hacc

/-- Shorthand for the three resolution inputs of `detect_fiber_counts`. -/
theorem detect_fiber_counts_eq (fn t : String)
    (tables : List (List (List (Option String)))) :
    detect_fiber_counts fn t tables =
      (let unique := dedupFirst (preDedupCounts
        (extract_primary_fiber_count_from_filename fn)
        (extract_fiber_counts_from_text t)
        (calculate_fiber_count_from_construction tables))
      let d4 := if unique.isEmpty then extract_fiber_counts_from_text t
        else unique
      if d4.isEmpty then ["24F"] else d4) := rfl

/-- C1: with a non-empty filename-derived list, every resolved label that
is not filename-derived must come from construction arithmetic; labels
detected only in the document text are never added.  The second conjunct is
the claim's particular case: filename `24F`, uncorroborated `96F` in the
text, resolution exactly `["24F"]`. -/
theorem text_only_labels_require_filename_corroboration :
    (∀ (filename all_text : String)
        (tables : List (List (List (Option String)))) (l : String),
      extract_primary_fiber_count_from_filename filename ≠ [] →
      l ∈ detect_fiber_counts filename all_text tables →
      l ∉ extract_primary_fiber_count_from_filename filename →
      calculate_fiber_count_from_construction tables = some l) ∧
    detect_fiber_counts "Cable_24F.pdf" "this cable offers 96F fiber" [] =
      ["24F"] := by
  constructor
  · intro filename all_text tables l hF hmem hnot
    rw [detect_fiber_counts_eq] at hmem
    have huniq : dedupFirst (preDedupCounts
        (extract_primary_fiber_count_from_filename filename)
        (extract_fiber_counts_from_text all_text)
        (calculate_fiber_count_from_construction tables)) ≠ [] :=
      dedupFirst_ne_nil (preDedup_ne_nil hF)
    have he : (dedupFirst (preDedupCounts
        (extract_primary_fiber_count_from_filename filename)
        (extract_fiber_counts_from_text all_text)
        (calculate_fiber_count_from_construction tables))).isEmpty = false := by
      cases hx : (dedupFirst (preDedupCounts
          (extract_primary_fiber_count_from_filename filename)
          (extract_fiber_counts_from_text all_text)
          (calculate_fiber_count_from_construction tables))).isEmpty with
      | true => exact absurd (List.isEmpty_iff.mp hx) huniq
      | false => rfl
    simp only [he, Bool.false_eq_true, if_false] at hmem
    rcases mem_preDedup_of_filename_nonempty hF
        (dedupFirst_mem hmem) with h1 | h1
    · exact absurd h1 hnot
    · exact h1
  · decide

/-- C1 witness: a document whose filename encodes `24F`, whose text
mentions `48F`, and whose table arithmetic (4 fibres per tube × 12 tubes)
corroborates `48F`; the theorem then forces the construction count. -/
theorem text_only_labels_require_filename_corroboration_witness :
    (extract_primary_fiber_count_from_filename "X_24F.pdf" ≠ [] ∧
      "48F" ∈ detect_fiber_counts "X_24F.pdf" "48F cable"
        [[[some "Fibres per tube", some "4"],
          [some "No. of loose tubes", some "12"]]] ∧
      "48F" ∉ extract_primary_fiber_count_from_filename "X_24F.pdf") ∧
    calculate_fiber_count_from_construction
        [[[some "Fibres per tube", some "4"],
          [some "No. of loose tubes", some "12"]]] = some "48F" :=
  ⟨⟨by decide, by decide, by decide⟩,
    text_only_labels_require_filename_corroboration.1 "X_24F.pdf" "48F cable"
      [[[some "Fibres per tube", some "4"],
        [some "No. of loose tubes", some "12"]]] "48F"
      (by decide) (by decide) (by decide)⟩

/-- C2: the resolved variant-label list is never empty, holds no
duplicates, preserves the first-occurrence order of the candidate cascade
(it is a sublist of the accumulated candidates followed by the fallbacks),
and every label is an allow-listed integer followed by `F`.  The last
conjunct is the claim's example: a filename containing `37F` never
produces a `37F` variant. -/
theorem resolved_labels_wellformed :
    (∀ (filename all_text : String)
        (tables : List (List (List (Option String)))),
      detect_fiber_counts filename all_text tables ≠ [] ∧
      (detect_fiber_counts filename all_text tables).Nodup ∧
      (∀ l ∈ detect_fiber_counts filename all_text tables,
        ∃ c ∈ VALID_FIBER_COUNTS, l = toString c ++ "F") ∧
      List.Sublist (detect_fiber_counts filename all_text tables)
        ((preDedupCounts (extract_primary_fiber_count_from_filename filename)
            (extract_fiber_counts_from_text all_text)
            (calculate_fiber_count_from_construction tables)
          ++ extract_fiber_counts_from_text all_text) ++ ["24F"])) ∧
    "37F" ∉ detect_fiber_counts "X_37F.pdf" "" [] := by
  constructor
  · intro filename all_text tables
    rw [detect_fiber_counts_eq]
    simp only
    rcases hu : (dedupFirst (preDedupCounts
        (extract_primary_fiber_count_from_filename filename)
        (extract_fiber_counts_from_text all_text)
        (calculate_fiber_count_from_construction tables))).isEmpty with _ | _
    case false =>
      have hne : dedupFirst (preDedupCounts
          (extract_primary_fiber_count_from_filename filename)
          (extract_fiber_counts_from_text all_text)
          (calculate_fiber_count_from_construction tables)) ≠ [] := by
        intro hnil
        rw [hnil] at hu
        simp at hu
      rw [if_neg (by simp [hu])]
      refine ⟨hne, dedupFirst_nodup _, ?_, ?_⟩
      · intro l hl
        rcases mem_preDedup_cases (dedupFirst_mem hl) with h1 | h1 | h1
        · exact extract_primary_allowlisted h1
        · exact calculate_allowlisted h1
        · exact extract_text_counts_allowlisted h1
      · exact (dedupFirst_sublist _).trans
          ((List.sublist_append_left _
              (extract_fiber_counts_from_text all_text)).trans
            (List.sublist_append_left _ ["24F"]))
    case true =>
      have hnilPre : preDedupCounts
          (extract_primary_fiber_count_from_filename filename)
          (extract_fiber_counts_from_text all_text)
          (calculate_fiber_count_from_construction tables) = [] := by
        by_contra hne
        exact dedupFirst_ne_nil hne (List.isEmpty_iff.mp hu)
      rcases ht : (extract_fiber_counts_from_text all_text).isEmpty with _ | _
      case false =>
        rw [if_neg (by simp [ht])]
        have htne : extract_fiber_counts_from_text all_text ≠ [] := by
          intro hnil
          rw [hnil] at ht
          simp at ht
        refine ⟨htne, extract_text_counts_nodup _, ?_, ?_⟩
        · intro l hl
          exact extract_text_counts_allowlisted hl
        · rw [hnilPre]
          simp only [List.nil_append]
          exact List.sublist_append_left _ _
      case true =>
        rw [if_pos (by simp [ht])]
        refine ⟨by simp, by simp, ?_, ?_⟩
        · intro l hl
          rw [List.mem_singleton.mp hl]
          exact ⟨24, by decide, by decide⟩
        · rw [hnilPre, List.isEmpty_iff.mp ht]
          simp
  · decide

/-- C2 witness: `96F` is among the labels resolved for
`Cable_24F96F.pdf`, and the theorem yields its allow-listed form. -/
theorem resolved_labels_wellformed_witness :
    ("96F" ∈ detect_fiber_counts "Cable_24F96F.pdf" "" []) ∧
    (∃ c ∈ VALID_FIBER_COUNTS, "96F" = toString c ++ "F") :=
  ⟨by decide,
    (resolved_labels_wellformed.1 "Cable_24F96F.pdf" "" []).2.2.1 "96F"
      (by decide)⟩

/-! ## Claim C5: the value normalizer. -/

/-- C5 (amended): `clean_parameter_value` strips the trailing IEC
reference from the spec's example, `clean_parameter_value("12.5 mm
IEC-60794-1-21-E7") = "12.5 mm"`, and it is idempotent at that example;
full idempotence does not hold (see the counterexample). -/
theorem clean_parameter_value_spec_example :
    clean_parameter_value "12.5 mm IEC-60794-1-21-E7" = "12.5 mm" ∧
    clean_parameter_value (clean_parameter_value "12.5 mm IEC-60794-1-21-E7")
      = clean_parameter_value "12.5 mm IEC-60794-1-21-E7" := by
  constructor
  · decide
  · decide

/-- C5 counterexample: `clean_parameter_value` is not idempotent.  On
`"12.5 A1 B2"` the trailing-code pass `([A-Z]\d+)$` removes only the final
code `B2`, leaving `"12.5 A1"`; a second application removes `A1` as well,
so `clean(clean(v)) ≠ clean(v)`. -/
theorem clean_parameter_value_not_idempotent :
    clean_parameter_value "12.5 A1 B2" = "12.5 A1" ∧
    clean_parameter_value (clean_parameter_value "12.5 A1 B2") = "12.5" ∧
    clean_parameter_value (clean_parameter_value "12.5 A1 B2")
      ≠ clean_parameter_value "12.5 A1 B2" := by
  refine ⟨by decide, by decide, by decide⟩

/-! ## Claim C10: the hard-coded processing date. -/

/-- C10: every record emitted by the result builder carries the constant
`processing_date` `"2025-08-11"`, independently of when the program
runs (the source hard-codes the string at main.py line 1008). -/
theorem processing_date_is_constant (filename : String)
    (grouped : List (String × Record)) (detected : List String)
    (r : OutputRecord) (h : r ∈ build_results filename grouped detected) :
    r.metadata.processing_date = "2025-08-11" := by
  unfold build_results at h
  rcases List.mem_filterMap.mp h with ⟨fc, _, hf⟩
  simp only at hf
  split at hf
  · cases hf
    rfl
  · cases hf

/-- C10 witness: a concrete one-variant result set, on which the theorem
yields the hard-coded date. -/
theorem processing_date_is_constant_witness :
    (⟨⟨"a.pdf", "24F", "2025-08-11", ["24F"]⟩,
        [("Page_1", [("H", "t")])], []⟩ : OutputRecord) ∈
      build_results "a.pdf" [("24F", ⟨[("Page_1", [("H", "t")])], []⟩)] ["24F"] ∧
    (⟨⟨"a.pdf", "24F", "2025-08-11", ["24F"]⟩,
        [("Page_1", [("H", "t")])], []⟩ : OutputRecord).metadata.processing_date
      = "2025-08-11" :=
  ⟨by decide,
    processing_date_is_constant "a.pdf" [("24F", ⟨[("Page_1", [("H", "t")])], []⟩)]
      ["24F"] _ (by decide)⟩

/-! ## Claim C6: per-variant truncation of a shared colour table. -/

/-- C6: every fiber-number key of the mapping decoded by
`extract_tabular_color_coding` for a variant with numeric count `k` has
integer value at most `k` — a shared colour table is truncated per
variant. -/
theorem tabular_color_keys_truncated (text : String) (k : Nat)
    (mapping : List (String × String)) (kv : String × String)
    (hm : ("Fibre Colour", mapping) ∈
      extract_tabular_color_coding text (some k))
    (hkv : kv ∈ mapping) : natOfDigits kv.1.data ≤ k := by
  unfold extract_tabular_color_coding at hm
  simp only at hm
  split at hm
  · split at hm
    · rw [List.mem_singleton, Prod.mk.injEq] at hm
      rw [hm.2] at hkv
      rcases mem_foldl_of_step _ (fun q => natOfDigits q.1.data ≤ k)
          (fun acc b x hx =>
            mem_foldl_of_step _ (fun q => natOfDigits q.1.data ≤ k)
              (fun acc2 q x hx2 => by
                split at hx2
                · rename_i hw
                  rcases mem_setA hx2 with he | hin
                  · exact Or.inr (by rw [he]; exact of_decide_eq_true hw)
                  · exact Or.inl hin
                · exact Or.inl hx2) _ _ _ hx)
          _ _ _ hkv with h | h
      · cases h
      · exact h
    · cases hm
  · simp at hm

/-- C6 witness: a shared table covering fiber numbers 1-12, decoded for a
variant with numeric count 6, yields exactly the keys `"1"`..`"6"`; the
theorem is applied to the key `"3"`. -/
theorem tabular_color_keys_truncated_witness :
    (("Fibre Colour",
        [("1", "Blue"), ("2", "Orange"), ("3", "Green"), ("4", "Brown"),
         ("5", "White"), ("6", "Gray")]) ∈
      extract_tabular_color_coding
        "Fibre Count 1 2 3 4 5 6 7 8 9 10 11 12\nFibre Colour bl or gr br wh gy rd bk ye vi pk cy"
        (some 6)) ∧
    (("3", "Green") ∈
      ([("1", "Blue"), ("2", "Orange"), ("3", "Green"), ("4", "Brown"),
        ("5", "White"), ("6", "Gray")] : List (String × String))) ∧
    natOfDigits "3".data ≤ 6 :=
  ⟨by decide, by decide,
    tabular_color_keys_truncated
      "Fibre Count 1 2 3 4 5 6 7 8 9 10 11 12\nFibre Colour bl or gr br wh gy rd bk ye vi pk cy"
      6
      [("1", "Blue"), ("2", "Orange"), ("3", "Green"), ("4", "Brown"),
       ("5", "White"), ("6", "Gray")]
      ("3", "Green") (by decide) (by decide)⟩

/-! ## Claim C4: the closing reconciliation pass. -/

theorem foldl_preserves {α β : Type} (f : α → β → α) (P : α → Prop)
    (hf : ∀ acc b, P acc → P (f acc b)) :
    ∀ (l : List β) (acc : α), P acc → P (l.foldl f acc)
  | [], _, h => h
  | b :: t, acc, h => foldl_preserves f P hf t (f acc b) (hf acc b h)

theorem foldl_preserves_mem {α β : Type} (f : α → β → α) (P : α → Prop) :
    ∀ (l : List β), (∀ acc b, b ∈ l → P acc → P (f acc b)) →
      ∀ (acc : α), P acc → P (l.foldl f acc) := by
  intro l
  induction l with
  | nil => intro _ acc h; exact h
  | cons b t ih =>
    intro hf acc h
    exact ih (fun acc2 b2 hb2 => hf acc2 b2 (List.mem_cons_of_mem _ hb2))
      (f acc b) (hf acc b (List.mem_cons_self _ _) h)

/-- The phase-1 scan step keeps both the kept sections and the queued
moves correctly categorized. -/
theorem reconcilePhase1Step_preserves (pm : PM)
    (acc : Specs × List (String × List (String × PVal)))
    (secp : String × List (String × PVal))
    (hQ : (∀ sp ∈ acc.1, ∀ q ∈ sp.2, categorize_parameter pm q.1 = sp.1) ∧
      (∀ sp ∈ acc.2, ∀ q ∈ sp.2, categorize_parameter pm q.1 = sp.1)) :
    (∀ sp ∈ (reconcilePhase1Step pm acc secp).1, ∀ q ∈ sp.2,
      categorize_parameter pm q.1 = sp.1) ∧
    (∀ sp ∈ (reconcilePhase1Step pm acc secp).2, ∀ q ∈ sp.2,
      categorize_parameter pm q.1 = sp.1) := by
  unfold reconcilePhase1Step
  constructor
  · intro sp hsp q hq
    rcases List.mem_append.mp hsp with h | h
    · exact hQ.1 sp h q hq
    · rw [List.mem_singleton.mp h] at hq ⊢
      exact of_decide_eq_true (List.mem_filter.mp hq).2
  · refine foldl_preserves _
      (fun mv : List (String × List (String × PVal)) =>
        ∀ sp ∈ mv, ∀ q ∈ sp.2, categorize_parameter pm q.1 = sp.1)
      (fun mv p hPA => ?_) _ _ hQ.2
    intro sp hsp q hq
    rcases mem_setA hsp with he | hin
    · subst he
      simp only at hq ⊢
      rcases mem_setA hq with he2 | hin2
      · rw [he2]
      · rcases hl : lookupA mv (categorize_parameter pm p.1) with _ | l
        · rw [hl] at hin2
          cases hin2
        · rw [hl] at hin2
          exact hPA _ (lookupA_mem hl) q hin2
    · exact hPA sp hin q hq

/-- A queued insertion into section `s` of a parameter whose category is
`s` keeps every section correctly categorized. -/
theorem reconcileInsert_preserves (pm : PM) (s : String) (sp3 : Specs)
    (pv : String × PVal) (hpv : categorize_parameter pm pv.1 = s)
    (hPA3 : ∀ sp ∈ sp3, ∀ q ∈ sp.2, categorize_parameter pm q.1 = sp.1) :
    ∀ sp ∈ reconcileInsert s sp3 pv, ∀ q ∈ sp.2,
      categorize_parameter pm q.1 = sp.1 := by
  unfold reconcileInsert
  split
  · exact hPA3
  · intro sp hsp q hq
    rcases mem_setA hsp with he | hin
    · subst he
      simp only at hq ⊢
      rcases List.mem_append.mp hq with h2 | h2
      · unfold getSec at h2
        rcases hl : lookupA sp3 s with _ | l
        · rw [hl] at h2
          cases h2
        · rw [hl] at h2
          exact hPA3 _ (lookupA_mem hl) q h2
      · rw [List.mem_singleton.mp h2]
        exact hpv
    · exact hPA3 sp hin q hq

/-- `ensureSec` keeps every section correctly categorized (the section it
may add is empty). -/
theorem ensureSec_correct (pm : PM) (specs2 : Specs) (s : String)
    (hPA : ∀ sp ∈ specs2, ∀ q ∈ sp.2, categorize_parameter pm q.1 = sp.1) :
    ∀ sp ∈ ensureSec specs2 s, ∀ q ∈ sp.2,
      categorize_parameter pm q.1 = sp.1 := by
  unfold ensureSec
  split
  · exact hPA
  · intro sp hsp q hq
    rcases List.mem_append.mp hsp with h2 | h2
    · exact hPA sp h2 q hq
    · rw [List.mem_singleton.mp h2] at hq
      cases hq

/-- Every section of every state reachable by `reconcile` holds only
parameters whose category is that section. -/
theorem reconcile_sections_correct (pm : PM) (specs : Specs) :
    ∀ sp ∈ reconcile pm specs, ∀ q ∈ sp.2,
      categorize_parameter pm q.1 = sp.1 := by
  have h1 := foldl_preserves (reconcilePhase1Step pm)
    (fun (acc : Specs × List (String × List (String × PVal))) =>
      (∀ sp ∈ acc.1, ∀ q ∈ sp.2, categorize_parameter pm q.1 = sp.1) ∧
      (∀ sp ∈ acc.2, ∀ q ∈ sp.2, categorize_parameter pm q.1 = sp.1))
    (reconcilePhase1Step_preserves pm) specs ([], []) ⟨by simp, by simp⟩
  have h2 := foldl_preserves_mem
    (fun specs2 mvp => mvp.2.foldl (reconcileInsert mvp.1)
      (ensureSec specs2 mvp.1))
    (fun sp2 => ∀ sp ∈ sp2, ∀ q ∈ sp.2, categorize_parameter pm q.1 = sp.1)
    (specs.foldl (reconcilePhase1Step pm) ([], [])).2
    (fun specs2 mvp hmem hPA =>
      foldl_preserves_mem (reconcileInsert mvp.1)
        (fun sp3 => ∀ sp ∈ sp3, ∀ q ∈ sp.2,
          categorize_parameter pm q.1 = sp.1)
        mvp.2
        (fun sp3 pv hpv hPA3 =>
          reconcileInsert_preserves pm mvp.1 sp3 pv (h1.2 mvp hmem pv hpv)
            hPA3)
        (ensureSec specs2 mvp.1) (ensureSec_correct pm specs2 mvp.1 hPA))
    (specs.foldl (reconcilePhase1Step pm) ([], [])).1 h1.1
  exact h2

/-- C4: after the reconciliation pass every parameter sits in the section
`categorize_parameter` assigns to its name, and a parameter name cannot
appear under two differently named sections of the reconciled record. -/
theorem reconcile_round_trip (pm : PM) (specs : Specs)
    (secp : String × List (String × PVal)) (p : String × PVal)
    (hs : secp ∈ reconcile pm specs) (hp : p ∈ secp.2) :
    categorize_parameter pm p.1 = secp.1 ∧
    ∀ secp2 ∈ reconcile pm specs, ∀ p2 ∈ secp2.2,
      p2.1 = p.1 → secp2.1 = secp.1 := by
  refine ⟨reconcile_sections_correct pm specs secp hs p hp,
    fun secp2 hs2 p2 hp2 he => ?_⟩
  rw [← reconcile_sections_correct pm specs secp2 hs2 p2 hp2, he,
    reconcile_sections_correct pm specs secp hs p hp]

/-- C4 witness: a `Cable Diameter` parameter filed under
`General Information` is moved by `reconcile` to `Cable Construction`,
its `categorize_parameter` section. -/
theorem reconcile_round_trip_witness :
    (("Cable Construction", [("Cable Diameter", PVal.s "8 mm")]) ∈
      reconcile pmInit
        [("General Information", [("Cable Diameter", PVal.s "8 mm")])]) ∧
    categorize_parameter pmInit "Cable Diameter" = "Cable Construction" :=
  ⟨by decide,
    (reconcile_round_trip pmInit
      [("General Information", [("Cable Diameter", PVal.s "8 mm")])]
      ("Cable Construction", [("Cable Diameter", PVal.s "8 mm")])
      ("Cable Diameter", PVal.s "8 mm") (by decide) (by decide)).1⟩

/-! ## Claim C7: text-derived versus table-derived values. -/

/-- C7 (amended): the generic enhanced-pattern writes are guarded — a slot
already holding a non-blank value is untouched by the
absent-or-blank-guarded write (`ppEnhanced`, `ppTemps`), and a present
slot is untouched by the absent-guarded write (`ppAtten`, `ppMfd`) — but
the tensile Installation/Operation path writes through `setParam`, which
unconditionally overwrites; so tabular data does NOT always win over
text-derived data. -/
theorem enhanced_text_writes_guarded (ts : Specs) (sec name : String)
    (v : PVal) :
    (∀ old, lookupA (getSec ts sec) name = some old → old.truthy = true →
      setParamIfAbsentOrBlank ts sec name v = ts) ∧
    (∀ old, lookupA (getSec ts sec) name = some old →
      setParamIfAbsent ts sec name v = ts) ∧
    lookupA (getSec (setParam ts sec name v) sec) name = some v := by
  refine ⟨?_, ?_, ?_⟩
  · intro old h ht
    unfold setParamIfAbsentOrBlank
    rw [h]
    simp [ht]
  · intro old h
    unfold setParamIfAbsent
    rw [h]
  · unfold setParam getSec
    rw [lookupA_setA_self]
    exact lookupA_setA_self _ _ _

/-- C7 witness: a slot holding the table value `"1000 N"` survives both
guarded writes, while the unconditional write replaces it. -/
theorem enhanced_text_writes_guarded_witness :
    (lookupA (getSec [("S", [("n", PVal.s "1000 N")])] "S") "n"
        = some (PVal.s "1000 N") ∧
      (PVal.s "1000 N").truthy = true ∧
      setParamIfAbsentOrBlank [("S", [("n", PVal.s "1000 N")])] "S" "n"
          (PVal.s "x")
        = [("S", [("n", PVal.s "1000 N")])]) ∧
    setParamIfAbsent [("S", [("n", PVal.s "1000 N")])] "S" "n" (PVal.s "x")
      = [("S", [("n", PVal.s "1000 N")])] ∧
    lookupA
        (getSec
          (setParam [("S", [("n", PVal.s "1000 N")])] "S" "n" (PVal.s "x"))
          "S") "n"
      = some (PVal.s "x") :=
  ⟨⟨by decide, by decide,
      (enhanced_text_writes_guarded [("S", [("n", PVal.s "1000 N")])] "S"
        "n" (PVal.s "x")).1 (PVal.s "1000 N") (by decide) (by decide)⟩,
    (enhanced_text_writes_guarded [("S", [("n", PVal.s "1000 N")])] "S"
      "n" (PVal.s "x")).2.1 (PVal.s "1000 N") (by decide),
    (enhanced_text_writes_guarded [("S", [("n", PVal.s "1000 N")])] "S"
      "n" (PVal.s "x")).2.2⟩

/-- C7 counterexample: a document whose first page's table sets
`Max. Tensile Strength` to `"1000 N"` and whose second page's text matches
the Installation/Operation tensile pattern ends with the text-derived
value — the table-derived value is overwritten, refuting "tabular data
always wins". -/
theorem tensile_overwrite_counterexample :
    (extract_grouped_data pmInit [] "X_24F.pdf"
        [⟨none, [[[some "Max. Tensile Strength", some "1000 N"],
                  [some "Parameter", some "", some ""]]]⟩]).fibreData
      = [("24F", ⟨[("Page_1", [])],
          [("Cable Characteristics",
            [("Max. Tensile Strength", PVal.s "1000 N")])]⟩)] ∧
    (extract_grouped_data pmInit [] "X_24F.pdf"
        [⟨none, [[[some "Max. Tensile Strength", some "1000 N"],
                  [some "Parameter", some "", some ""]]]⟩,
         ⟨some "Installation: 600 N Operation: 1500 N", []⟩]).fibreData
      = [("24F", ⟨[("Page_1", []), ("Page_2", [])],
          [("Cable Characteristics",
            [("Max. Tensile Strength",
              PVal.s "Installation: 600 N Operation: 1500 N")])]⟩)] ∧
    PVal.s "Installation: 600 N Operation: 1500 N" ≠ PVal.s "1000 N" := by
  refine ⟨by decide, by decide, by decide⟩

/-! ## Claim C8: lifetime of the fiber-column mappings. -/

/-- C8 (amended): the column mapping built from a fiber-count header row
is function-level and module-global, not per-table: a document that
writes the global `COLUMN_MAPPINGS` hands it to the next call, and a
later document's rows read values through it — the same single-table
document resolves differently depending on the mappings a previous
document left behind. -/
theorem column_mappings_persist :
    (extract_grouped_data pmInit [] "Cable_24F96F.pdf"
        [⟨none, [[[some "Cable Code", some "ABC-24F", some "ABC-96F"],
                  [some "Parameter", some "", some ""]]]⟩]).columnMappings
      = [("24F", 1, "ABC-24F"), ("96F", 2, "ABC-96F")] ∧
    (extract_grouped_data pmInit [] "Cable_24F96F.pdf"
        [⟨none, [[[some "Nominal Weight", some "90 kg/km", some "120 kg/km"],
                  [some "Parameter", some "", some ""]]]⟩]).fibreData
      = [("96F", ⟨[("Page_1", [])],
          [("Physical Specifications",
            [("Nominal Weight", PVal.s "120 kg/km")])]⟩),
         ("24F", ⟨[("Page_1", [])],
          [("Physical Specifications",
            [("Nominal Weight", PVal.s "120 kg/km")])]⟩)] ∧
    (extract_grouped_data pmInit
        [("24F", 1, "ABC-24F"), ("96F", 2, "ABC-96F")] "Cable_24F96F.pdf"
        [⟨none, [[[some "Nominal Weight", some "90 kg/km", some "120 kg/km"],
                  [some "Parameter", some "", some ""]]]⟩]).fibreData
      = [("96F", ⟨[("Page_1", [])],
          [("Physical Specifications",
            [("Nominal Weight", PVal.s "120 kg/km")])]⟩),
         ("24F", ⟨[("Page_1", [])],
          [("Physical Specifications",
            [("Nominal Weight", PVal.s "90 kg/km")])]⟩)] := by
  refine ⟨by decide, by decide, by decide⟩

/-- C8 counterexample: a fiber-count header row in one table is consulted
by the `Cable Diameter` row of a *different* table of the same document
(96F resolves to the column value `"10.2 mm"`); without the foreign
header table the same diameter row gives every variant the shared
`"8.5 mm"`. -/
theorem column_mapping_cross_table_counterexample :
    (extract_grouped_data pmInit [] "Cable_24F96F.pdf"
        [⟨none, [[[some "Fibre Count", some "24F", some "96F"],
                  [some "Parameter", some "", some ""]],
                 [[some "Cable Diameter", some "8.5 mm", some "10.2 mm"],
                  [some "Parameter", some "", some ""]]]⟩]).fibreData
      = [("96F", ⟨[("Page_1", [])],
          [("General Information", []),
           ("Cable Construction",
            [("Cable Diameter", PVal.s "10.2 mm"),
             ("Fiber Count", PVal.s "96")])]⟩),
         ("24F", ⟨[("Page_1", [])],
          [("General Information", []),
           ("Cable Construction",
            [("Cable Diameter", PVal.s "8.5 mm"),
             ("Fiber Count", PVal.s "24")])]⟩)] ∧
    (extract_grouped_data pmInit [] "Cable_24F96F.pdf"
        [⟨none, [[[some "Cable Diameter", some "8.5 mm", some "10.2 mm"],
                  [some "Parameter", some "", some ""]]]⟩]).fibreData
      = [("96F", ⟨[("Page_1", [])],
          [("Cable Construction",
            [("Cable Diameter", PVal.s "8.5 mm")])]⟩),
         ("24F", ⟨[("Page_1", [])],
          [("Cable Construction",
            [("Cable Diameter", PVal.s "8.5 mm")])]⟩)] ∧
    PVal.s "10.2 mm" ≠ PVal.s "8.5 mm" := by
  refine ⟨by decide, by decide, by decide⟩

/-! ## Claim C3: the end-to-end scenario of the spec. -/

/-- C3 (code bug): on the spec's two-page document the pipeline does
produce the two records with the correct per-variant diameters, but
neither record contains any `Attenuation at 1550 nm` parameter: the
attenuation patterns in `config_parameters.py` spell `≤` in its
double-encoded (mojibake) form, so they can never match the genuine `≤`
of the page text — the enhanced attenuation pattern fails on the very
line the spec quotes. -/
theorem attenuation_lost_to_mojibake :
    (extract_grouped_data pmInit [] "Cable_24F96F.pdf"
        [⟨some "Attenuation at 1550 nm ≤ 0.20 dB/km", []⟩,
         ⟨none, [[[some "Fibre Count", some "24F", some "96F"],
                  [some "Cable Diameter", some "8.5 mm", some "10.2 mm"]]]⟩]).fibreData
      = [("96F", ⟨[("Page_1", []), ("Page_2", [])],
          [("General Information", []),
           ("Cable Construction",
            [("Cable Diameter", PVal.s "10.2 mm"),
             ("Fiber Count", PVal.s "96")])]⟩),
         ("24F", ⟨[("Page_1", []), ("Page_2", [])],
          [("General Information", []),
           ("Cable Construction",
            [("Cable Diameter", PVal.s "8.5 mm"),
             ("Fiber Count", PVal.s "24")])]⟩)] ∧
    ((extract_grouped_data pmInit [] "Cable_24F96F.pdf"
        [⟨some "Attenuation at 1550 nm ≤ 0.20 dB/km", []⟩,
         ⟨none, [[[some "Fibre Count", some "24F", some "96F"],
                  [some "Cable Diameter", some "8.5 mm", some "10.2 mm"]]]⟩]).fibreData.all
      (fun kv => kv.2.ts.all (fun secp => secp.2.all
        (fun p => p.1 ≠ "Attenuation at 1550 nm")))) = true ∧
    (lookupA ENHANCED_TEXT_PATTERNS "attenuation").isSome = true ∧
    ((lookupA ENHANCED_TEXT_PATTERNS "attenuation").all
        (fun pat =>
          (searchRe pat "Attenuation at 1550 nm ≤ 0.20 dB/km".data).isNone))
      = true := by
  refine ⟨by decide, by decide, by decide, by decide⟩

/-! ## Claim C9: whitespace-only documents.

The machinery below shows that no pattern of the configuration can match
inside an all-whitespace subject (`Re.needsNonWs` is a sound syntactic
criterion), hence a document whose pages hold only whitespace text and no
tables flows through the pipeline without acquiring any data. -/

theorem foldl_id_of_step {α β : Type} (f : α → β → α) (l : List β)
    (h : ∀ acc b, f acc b = acc) : ∀ acc, l.foldl f acc = acc := by
  induction l with
  | nil => intro acc; rfl
  | cons b t ih => intro acc; rw [List.foldl_cons, h acc b]; exact ih acc

theorem foldl_id_of_step_mem {α β : Type} (f : α → β → α) :
    ∀ (l : List β), (∀ acc b, b ∈ l → f acc b = acc) →
      ∀ acc, l.foldl f acc = acc := by
  intro l
  induction l with
  | nil => intro _ acc; rfl
  | cons b t ih =>
    intro h acc
    rw [List.foldl_cons, h acc b (List.mem_cons_self _ _)]
    exact ih (fun acc2 b2 hb2 => h acc2 b2 (List.mem_cons_of_mem _ hb2)) acc

theorem isSpacePy_toLowerPy (c : Char) :
    isSpacePy (toLowerPy c) = isSpacePy c := by
  unfold toLowerPy
  split <;> rfl

theorem isSpacePy_cases {c : Char} (h : isSpacePy c = true) :
    c = ' ' ∨ c = '\t' ∨ c = '\n' ∨ c = '\x0d' ∨ c = '\x0c' ∨
      c = '\x0b' := by
  simp only [isSpacePy, Bool.or_eq_true, decide_eq_true_eq] at h
  tauto

theorem CC_noWs_not_mem {cc : CC} {c : Char} (hws : isSpacePy c = true)
    (hn : cc.noWs = true) : cc.mem c = false := by
  induction cc with
  | chars l =>
    simp only [CC.noWs] at hn
    cases hcon : (CC.chars l).mem c
    · rfl
    · simp only [CC.mem] at hcon
      have hmem := List.mem_of_elem_eq_true hcon
      have := List.all_eq_true.mp hn c hmem
      rw [hws] at this
      cases this
  | digit =>
    rcases isSpacePy_cases hws with h | h | h | h | h | h <;> rw [h] <;> rfl
  | space => cases hn
  | alphaC =>
    rcases isSpacePy_cases hws with h | h | h | h | h | h <;> rw [h] <;> rfl
  | upper =>
    rcases isSpacePy_cases hws with h | h | h | h | h | h <;> rw [h] <;> rfl
  | lower =>
    rcases isSpacePy_cases hws with h | h | h | h | h | h <;> rw [h] <;> rfl
  | exceptC l => cases hn
  | or2 a b iha ihb =>
    simp only [CC.noWs, Bool.and_eq_true] at hn
    simp only [CC.mem, iha hn.1, ihb hn.2]
    rfl

theorem flatMapNilOfAll {α β : Type} :
    ∀ (l : List α) (f : α → List β), (∀ a ∈ l, f a = []) →
      l.flatMap f = [] := by
  intro l f
  induction l with
  | nil => intro _; rfl
  | cons a t ih =>
    intro h
    rw [List.flatMap_cons, h a (List.mem_cons_self _ _), ih
      (fun a2 ha2 => h a2 (List.mem_cons_of_mem _ ha2))]
    rfl

theorem allWs_drop {cs : List Char} (n : Nat)
    (h : cs.all isSpacePy = true) : (cs.drop n).all isSpacePy = true :=
  List.all_eq_true.mpr
    (fun c hc => List.all_eq_true.mp h c (List.drop_subset n cs hc))

theorem allWs_head {c : Char} {t : List Char}
    (h : (c :: t).all isSpacePy = true) : isSpacePy c = true := by
  simp only [List.all_cons, Bool.and_eq_true] at h
  exact h.1

theorem allWs_tail {c : Char} {t : List Char}
    (h : (c :: t).all isSpacePy = true) : t.all isSpacePy = true := by
  simp only [List.all_cons, Bool.and_eq_true] at h
  exact h.2

/-- A pattern every match of which must consume a non-whitespace character
admits no match alternative inside an all-whitespace subject. -/
theorem run_allWs_nil :
    ∀ (fuel : Nat) (r : Re) (pos : Nat) (cs : List Char) (caps : Caps),
      cs.all isSpacePy = true → r.needsNonWs = true →
      Re.run fuel r pos cs caps = [] := by
  intro fuel
  induction fuel with
  | zero => intro r pos cs caps _ _; rfl
  | succ fuel ih =>
    intro r pos cs caps hws hn
    cases r with
    | eps => cases hn
    | bos => cases hn
    | eol => cases hn
    | star a lz => cases hn
    | look a => cases hn
    | lit c =>
      simp only [Re.needsNonWs, Bool.not_eq_true'] at hn
      cases cs with
      | nil => rfl
      | cons c' t =>
        have hc' := allWs_head hws
        have hne : c' ≠ c := by
          intro he
          rw [he, hn] at hc'
          cases hc'
        simp [Re.run, hne]
    | litCI c =>
      simp only [Re.needsNonWs, Bool.not_eq_true'] at hn
      cases cs with
      | nil => rfl
      | cons c' t =>
        have hc' := allWs_head hws
        have hne : toLowerPy c' ≠ toLowerPy c := by
          intro he
          have h1 : isSpacePy (toLowerPy c') = isSpacePy (toLowerPy c) := by
            rw [he]
          rw [isSpacePy_toLowerPy, isSpacePy_toLowerPy, hc', hn] at h1
          cases h1
        simp [Re.run, hne]
    | cl cc =>
      simp only [Re.needsNonWs] at hn
      cases cs with
      | nil => rfl
      | cons c' t =>
        have hmem := CC_noWs_not_mem (allWs_head hws) hn
        simp [Re.run, hmem]
    | cat a b =>
      simp only [Re.needsNonWs, Bool.or_eq_true] at hn
      simp only [Re.run]
      rcases hn with ha | hb
      · rw [ih a pos cs caps hws ha]
        rfl
      · refine flatMapNilOfAll _ _ (fun nc _ => ?_)
        rw [ih b (pos + nc.1) (cs.drop nc.1) nc.2 (allWs_drop nc.1 hws) hb]
        rfl
    | alt a b =>
      simp only [Re.needsNonWs, Bool.and_eq_true] at hn
      simp only [Re.run]
      rw [ih a pos cs caps hws hn.1, ih b pos cs caps hws hn.2]
      rfl
    | grp i a =>
      simp only [Re.needsNonWs] at hn
      simp only [Re.run]
      rw [ih a pos cs caps hws hn]
      rfl

theorem searchFrom_allWs_none (r : Re) (hn : r.needsNonWs = true) :
    ∀ (cs : List Char) (pos : Nat), cs.all isSpacePy = true →
      searchFrom r cs pos = none := by
  intro cs
  induction cs with
  | nil =>
    intro pos h
    unfold searchFrom
    rw [run_allWs_nil _ _ _ _ _ h hn]
  | cons c t ih =>
    intro pos h
    unfold searchFrom
    rw [run_allWs_nil _ _ _ _ _ h hn]
    exact ih (pos + 1) (allWs_tail h)

theorem searchRe_allWs_none {cs : List Char}
    (h : cs.all isSpacePy = true) {r : Re} (hn : r.needsNonWs = true) :
    searchRe r cs = none :=
  searchFrom_allWs_none r hn cs 0 h

theorem findAllFrom_succ_eq (fuel : Nat) (r : Re) (cs : List Char)
    (pos : Nat) :
    findAllFrom (fuel + 1) r cs pos =
      (match Re.run (matchFuel r cs) r pos cs [] with
       | nc :: _ =>
         if 0 < nc.1 ∧ nc.1 ≤ cs.length then
           (pos, nc.1, nc.2) ::
             findAllFrom fuel r (cs.drop nc.1) (pos + nc.1)
         else
           match cs with
           | [] => [(pos, nc.1, nc.2)]
           | _ :: t => (pos, nc.1, nc.2) :: findAllFrom fuel r t (pos + 1)
       | [] =>
         match cs with
         | [] => []
         | _ :: t => findAllFrom fuel r t (pos + 1)) := rfl

theorem findAllFrom_allWs_nil (r : Re) (hn : r.needsNonWs = true) :
    ∀ (fuel : Nat) (cs : List Char) (pos : Nat),
      cs.all isSpacePy = true → findAllFrom fuel r cs pos = [] := by
  intro fuel
  induction fuel with
  | zero => intro cs pos _; rfl
  | succ fuel ih =>
    intro cs pos h
    rw [findAllFrom_succ_eq, run_allWs_nil _ _ _ _ _ h hn]
    cases cs with
    | nil => rfl
    | cons c t => exact ih t (pos + 1) (allWs_tail h)

theorem findAllRe_allWs_nil {cs : List Char}
    (h : cs.all isSpacePy = true) {r : Re} (hn : r.needsNonWs = true) :
    findAllRe r cs = [] :=
  findAllFrom_allWs_nil r hn (cs.length + 1) cs 0 h

/-- Every enhanced pattern needs a non-whitespace character. -/
theorem enhanced_pat_needs {k : String} {p : Re}
    (h : lookupA ENHANCED_TEXT_PATTERNS k = some p) :
    p.needsNonWs = true := by
  have hall : ENHANCED_TEXT_PATTERNS.all (fun kv => kv.2.needsNonWs)
      = true := by decide
  exact List.all_eq_true.mp hall (k, p) (lookupA_mem h)

/-- Every static text-parameter pattern needs a non-whitespace
character. -/
theorem text_pat_needs {tp : TextPat}
    (h : tp ∈ get_all_text_patterns pmInit) : tp.re.needsNonWs = true := by
  have hall : TEXT_PARAMETER_PATTERNS.all (fun tp => tp.re.needsNonWs)
      = true := by decide
  unfold get_all_text_patterns at h
  rcases List.mem_append.mp h with h1 | h1
  · exact List.all_eq_true.mp hall tp h1
  · cases h1

theorem extract_color_coding_allWs {t : String}
    (hws : t.data.all isSpacePy = true) (k : Option Nat) :
    extract_color_coding_from_text t k = [] := by
  unfold extract_color_coding_from_text extract_tabular_color_coding
  rw [findAllRe_allWs_nil hws (by decide : fibreCountTabP.needsNonWs = true)]
  simp

theorem extract_parameters_allWs {t : String}
    (hws : t.data.all isSpacePy = true) (detected : List String) :
    extract_parameters_from_text pmInit t detected = (pmInit, []) := by
  unfold extract_parameters_from_text
  refine foldl_id_of_step_mem _ _ (fun st2 tp htp => ?_) _
  rw [findAllRe_allWs_nil hws (text_pat_needs htp)]
  rfl

theorem ppColour_allWs (detected : List String) (st : LoopSt) {t : String}
    (hws : t.data.all isSpacePy = true) : ppColour detected st t = st := by
  unfold ppColour
  refine foldl_id_of_step _ _ (fun s fc => ?_) st
  simp [extract_color_coding_allWs hws]

theorem ppTextParams_allWs (detected : List String) (st : LoopSt)
    {t : String} (hws : t.data.all isSpacePy = true)
    (hpm : st.pm = pmInit) : ppTextParams detected st t = st := by
  unfold ppTextParams
  rw [hpm, extract_parameters_allWs hws]
  simp
  rw [← hpm]

theorem ppTensile_allWs (detected : List String) (st : LoopSt) {t : String}
    (hws : t.data.all isSpacePy = true) : ppTensile detected st t = st := by
  unfold ppTensile
  split
  · rename_i pat heq
    rw [searchRe_allWs_none hws (enhanced_pat_needs heq)]
  · rfl

theorem ppEnhanced_allWs (detected : List String) (st : LoopSt)
    {t : String} (hws : t.data.all isSpacePy = true) :
    ppEnhanced detected st t = st := by
  unfold ppEnhanced
  refine foldl_id_of_step _ _ (fun s kv => ?_) st
  dsimp only
  split
  · rename_i pat heq
    rw [searchRe_allWs_none hws (enhanced_pat_needs heq)]
  · rfl

theorem ppTemps_allWs (detected : List String) (st : LoopSt)
    {t : String} (hws : t.data.all isSpacePy = true) :
    ppTemps detected st t = st := by
  unfold ppTemps
  refine foldl_id_of_step _ _ (fun s kv => ?_) st
  dsimp only
  split
  · rename_i pat heq
    rw [searchRe_allWs_none hws (enhanced_pat_needs heq)]
  · rfl

theorem ppAtten_allWs (detected : List String) (st : LoopSt)
    {t : String} (hws : t.data.all isSpacePy = true) :
    ppAtten detected st t = st := by
  unfold ppAtten
  split
  · rename_i pat heq
    rw [findAllRe_allWs_nil hws (enhanced_pat_needs heq)]
    rfl
  · rfl

theorem ppMfd_allWs (detected : List String) (st : LoopSt)
    {t : String} (hws : t.data.all isSpacePy = true) :
    ppMfd detected st t = st := by
  unfold ppMfd
  split
  · rename_i pat heq
    rw [findAllRe_allWs_nil hws (enhanced_pat_needs heq)]
    rfl
  · rfl

/-- An all-whitespace page text leaves the loop state untouched (for the
initial registry, whose pattern set is the static configuration). -/
theorem processPageText_allWs (detected : List String) (st : LoopSt)
    {t : String} (hws : t.data.all isSpacePy = true)
    (hpm : st.pm = pmInit) : processPageText detected st t = st := by
  unfold processPageText
  rw [ppColour_allWs detected st hws, ppTextParams_allWs detected st hws hpm,
    ppTensile_allWs detected st hws, ppEnhanced_allWs detected st hws,
    ppTemps_allWs detected st hws, ppAtten_allWs detected st hws,
    ppMfd_allWs detected st hws]

theorem stripLeft_allWs :
    ∀ {l : List Char}, l.all isSpacePy = true → stripLeft l = [] := by
  intro l
  induction l with
  | nil => intro _; rfl
  | cons c t ih =>
    intro h
    unfold stripLeft
    rw [if_pos (allWs_head h)]
    exact ih (allWs_tail h)

theorem stripPy_allWs {l : List Char} (h : l.all isSpacePy = true) :
    stripPy l = [] := by
  unfold stripPy
  rw [stripLeft_allWs h]
  rfl

theorem splitOnChar_allWs {sep : Char} :
    ∀ {cs : List Char}, cs.all isSpacePy = true →
      ∀ l ∈ splitOnChar sep cs, l.all isSpacePy = true := by
  intro cs
  induction cs with
  | nil =>
    intro _ l hl
    rw [List.mem_singleton.mp hl]
    rfl
  | cons c r ih =>
    intro h l hl
    simp only [splitOnChar] at hl
    split at hl
    · rcases List.mem_cons.mp hl with he | hm
      · rw [he]
        rfl
      · exact ih (allWs_tail h) l hm
    · split at hl
      · rename_i hrest
        rw [List.mem_singleton.mp hl]
        simp [allWs_head h]
      · rename_i h0 t0 hrest
        rcases List.mem_cons.mp hl with he | hm
        · have hh0 : h0.all isSpacePy = true :=
            ih (allWs_tail h) h0 (by rw [hrest]; exact List.mem_cons_self _ _)
          rw [he]
          simp [List.all_cons, allWs_head h, hh0]
        · exact ih (allWs_tail h) l (by rw [hrest]; exact List.mem_cons_of_mem _ hm)

theorem extract_text_content_allWs (t : String)
    (hws : t.data.all isSpacePy = true) :
    extract_text_content (some t) = [] := by
  unfold extract_text_content
  simp only
  split
  · rfl
  · have hlines : ∀ line ∈ (splitOnChar '\n' t.data).map stripPy,
        line = ([] : List Char) := by
      intro line hline
      rcases List.mem_map.mp hline with ⟨piece, hp, he⟩
      rw [← he]
      exact stripPy_allWs (splitOnChar_allWs hws piece hp)
    have hfold : ((splitOnChar '\n' t.data).map stripPy).foldl
        (etcStep ["specification", "description", "technical",
          "parameters", "characteristics"]) (none, [], [])
      = (none, [], []) :=
      foldl_id_of_step_mem _ _
        (fun acc line hl => by
          rw [hlines line hl]
          rcases acc with ⟨ch, bf, ou⟩
          rfl) _
    rw [hfold]

theorem getRec_blank (fd : List (String × Record)) (fc : String)
    (h : ∀ kv ∈ fd, kv.2.ts = [] ∧ ∀ e ∈ kv.2.dtc, e.2 = []) :
    (getRec fd fc).ts = [] ∧ ∀ e ∈ (getRec fd fc).dtc, e.2 = [] := by
  unfold getRec
  rcases hl : lookupA fd fc with _ | r
  · exact ⟨rfl, fun e he => by cases he⟩
  · exact ⟨(h (fc, r) (lookupA_mem hl)).1, (h (fc, r) (lookupA_mem hl)).2⟩

theorem pageDtc_preserves (fd : List (String × Record)) (fc key : String)
    (h : ∀ kv ∈ fd, kv.2.ts = [] ∧ ∀ e ∈ kv.2.dtc, e.2 = []) :
    ∀ kv ∈ setRec fd fc
        { getRec fd fc with dtc := setA (getRec fd fc).dtc key [] },
      kv.2.ts = [] ∧ ∀ e ∈ kv.2.dtc, e.2 = [] := by
  intro kv hkv
  unfold setRec at hkv
  rcases mem_setA hkv with he | hin
  · rw [he]
    refine ⟨(getRec_blank fd fc h).1, ?_⟩
    intro e he2
    rcases mem_setA he2 with he3 | hin3
    · rw [he3]
    · exact (getRec_blank fd fc h).2 e hin3
  · exact h kv hin

theorem dtcFold_preserves (detected : List String) (key : String)
    (st : LoopSt)
    (hQ : st.pm = pmInit ∧ st.fsv = [] ∧
      ∀ kv ∈ st.fd, kv.2.ts = [] ∧ ∀ e ∈ kv.2.dtc, e.2 = []) :
    (detected.foldl (pageDtcStep key) st).pm = pmInit ∧
    (detected.foldl (pageDtcStep key) st).fsv = [] ∧
    ∀ kv ∈ (detected.foldl (pageDtcStep key) st).fd,
      kv.2.ts = [] ∧ ∀ e ∈ kv.2.dtc, e.2 = [] :=
  foldl_preserves (pageDtcStep key)
    (fun s : LoopSt => s.pm = pmInit ∧ s.fsv = [] ∧
      ∀ kv ∈ s.fd, kv.2.ts = [] ∧ ∀ e ∈ kv.2.dtc, e.2 = [])
    (fun s fc hs => ⟨hs.1, hs.2.1, pageDtc_preserves s.fd fc key hs.2.2⟩)
    detected st hQ

theorem fibreData0_blank (D : List String) :
    ∀ kv ∈ D.foldl (fun acc fc => setA acc fc (⟨[], []⟩ : Record)) [],
      kv.2.ts = [] ∧ ∀ e ∈ kv.2.dtc, e.2 = [] := by
  intro kv hkv
  rcases mem_foldl_of_step _
      (fun kv : String × Record =>
        kv.2.ts = [] ∧ ∀ e ∈ kv.2.dtc, e.2 = [])
      (fun acc fc x hx => by
        rcases mem_setA hx with he | hin
        · exact Or.inr (by rw [he]; exact ⟨rfl, fun e he2 => by cases he2⟩)
        · exact Or.inl hin)
      _ _ _ hkv with h | h
  · cases h
  · exact h

theorem reconcileFold_blank (pm : PM) (D : List String)
    (fd : List (String × Record))
    (h : ∀ kv ∈ fd, kv.2.ts = [] ∧ ∀ e ∈ kv.2.dtc, e.2 = []) :
    ∀ kv ∈ D.foldl (fun fd2 fc =>
        setRec fd2 fc
          { getRec fd2 fc with ts := reconcile pm (getRec fd2 fc).ts }) fd,
      kv.2.ts = [] ∧ ∀ e ∈ kv.2.dtc, e.2 = [] :=
  foldl_preserves _
    (fun fd2 => ∀ kv ∈ fd2, kv.2.ts = [] ∧ ∀ e ∈ kv.2.dtc, e.2 = [])
    (fun fd2 fc hP kv hkv => by
      unfold setRec at hkv
      rcases mem_setA hkv with he | hin
      · rw [he]
        constructor
        · show reconcile pm (getRec fd2 fc).ts = []
          rw [(getRec_blank fd2 fc hP).1]
          rfl
        · intro e he2
          exact (getRec_blank fd2 fc hP).2 e he2
      · exact hP kv hin)
    D fd h

theorem mem_enumFrom_snd {α : Type} :
    ∀ (l : List α) (n : Nat) (p : Nat × α), p ∈ l.enumFrom n → p.2 ∈ l := by
  intro l
  induction l with
  | nil => intro n p h; cases h
  | cons a t ih =>
    intro n p h
    rcases List.mem_cons.mp h with he | hm
    · rw [he]
      exact List.mem_cons_self _ _
    · exact List.mem_cons_of_mem _ (ih (n + 1) p hm)

/-- One all-whitespace, table-less page preserves the blank-record
invariant of the page loop. -/
theorem processPage_allWs_preserves (detected : List String)
    (lastFc : String) (st : LoopSt) (i : Nat) (page : Page)
    (htab : page.tables = [])
    (htxt : ∀ t, page.text = some t → t.data.all isSpacePy = true)
    (hQ : st.pm = pmInit ∧ st.fsv = [] ∧
      ∀ kv ∈ st.fd, kv.2.ts = [] ∧ ∀ e ∈ kv.2.dtc, e.2 = []) :
    (processPage detected lastFc st i page).pm = pmInit ∧
    (processPage detected lastFc st i page).fsv = [] ∧
    ∀ kv ∈ (processPage detected lastFc st i page).fd,
      kv.2.ts = [] ∧ ∀ e ∈ kv.2.dtc, e.2 = [] := by
  unfold processPage
  rw [htab]
  simp only [List.foldl_nil]
  have h1 := dtcFold_preserves detected ("Page_" ++ toString i) st hQ
  rcases hpt : page.text with _ | t
  · exact h1
  · rw [extract_text_content_allWs t (htxt t hpt)]
    simp only
    split
    · show (processPageText detected
          (List.foldl (pageDtcStep ("Page_" ++ toString i)) st detected)
          t).pm = pmInit ∧
        (processPageText detected
          (List.foldl (pageDtcStep ("Page_" ++ toString i)) st detected)
          t).fsv = [] ∧
        ∀ kv ∈ (processPageText detected
            (List.foldl (pageDtcStep ("Page_" ++ toString i)) st detected)
            t).fd,
          kv.2.ts = [] ∧ ∀ e ∈ kv.2.dtc, e.2 = []
      rw [processPageText_allWs detected _ (htxt t hpt) h1.1]
      exact h1
    · exact h1

/-- The whole page loop over whitespace pages keeps every record blank. -/
theorem afterPages_blank (D : List String) (lastFc : String)
    (st0 : LoopSt) (pages : List Page)
    (hp : ∀ p ∈ pages, p.tables = [] ∧
      ∀ t, p.text = some t → t.data.all isSpacePy = true)
    (h0 : st0.pm = pmInit ∧ st0.fsv = [] ∧
      ∀ kv ∈ st0.fd, kv.2.ts = [] ∧ ∀ e ∈ kv.2.dtc, e.2 = []) :
    (pages.enum.foldl (fun s ip =>
      processPage D lastFc s (ip.1 + 1) ip.2) st0).pm = pmInit ∧
    (pages.enum.foldl (fun s ip =>
      processPage D lastFc s (ip.1 + 1) ip.2) st0).fsv = [] ∧
    ∀ kv ∈ (pages.enum.foldl (fun s ip =>
        processPage D lastFc s (ip.1 + 1) ip.2) st0).fd,
      kv.2.ts = [] ∧ ∀ e ∈ kv.2.dtc, e.2 = [] := by
  refine foldl_preserves_mem _
    (fun s : LoopSt => s.pm = pmInit ∧ s.fsv = [] ∧
      ∀ kv ∈ s.fd, kv.2.ts = [] ∧ ∀ e ∈ kv.2.dtc, e.2 = [])
    pages.enum ?_ st0 h0
  intro s ip hip hQs
  have hmem := mem_enumFrom_snd pages 0 ip hip
  exact processPage_allWs_preserves D lastFc s (ip.1 + 1) ip.2
    (hp ip.2 hmem).1 (fun t ht => (hp ip.2 hmem).2 t ht) hQs

/-- A whitespace-only, table-less document leaves every variant record
without any specification data or text content. -/
theorem extract_grouped_data_allWs (cm0 : List (String × Nat × String))
    (fn : String) (pages : List Page)
    (hp : ∀ p ∈ pages, p.tables = [] ∧
      ∀ t, p.text = some t → t.data.all isSpacePy = true) :
    ∀ kv ∈ (extract_grouped_data pmInit cm0 fn pages).fibreData,
      kv.2.ts = [] ∧ ∀ e ∈ kv.2.dtc, e.2 = [] := by
  intro kv hkv
  unfold extract_grouped_data at hkv
  simp only at hkv
  have hQ := afterPages_blank
    (detect_fiber_counts fn (docAllText pages) (docTables pages))
    ((detect_fiber_counts fn (docAllText pages) (docTables pages)).getLastD
      "")
    ⟨pmInit,
      (detect_fiber_counts fn (docAllText pages) (docTables pages)).foldl
        (fun acc fc => setA acc fc (⟨[], []⟩ : Record)) [],
      "General Information", [], [], cm0⟩
    pages hp
    ⟨rfl, rfl,
      fibreData0_blank
        (detect_fiber_counts fn (docAllText pages) (docTables pages))⟩
  rw [hQ.2.1] at hkv
  simp only [List.foldl_nil] at hkv
  exact reconcileFold_blank _ _ _ hQ.2.2 kv hkv

/-- C9: a document whose pages hold only whitespace text and no tables
yields zero output records and the no-meaningful-data error; and in
general a record is emitted only when it has a non-empty specification
section or a non-empty text block. -/
theorem whitespace_only_documents_rejected :
    (∀ (cm0 : List (String × Nat × String)) (fn : String)
        (pages : List Page),
      (∀ p ∈ pages, p.tables = [] ∧
        ∀ t, p.text = some t → t.data.all isSpacePy = true) →
      extract_pdf pmInit cm0 fn pages = ApiResult.errorNoData) ∧
    (∀ (fn : String) (grouped : List (String × Record))
        (detected : List String) (r : OutputRecord),
      r ∈ build_results fn grouped detected →
      (r.technical_specifications.any (fun secp => !secp.2.isEmpty)
        || r.document_content.any (fun pg => !pg.2.isEmpty)) = true) := by
  constructor
  · intro cm0 fn pages hp
    have hfd := extract_grouped_data_allWs cm0 fn pages hp
    unfold extract_pdf
    have hbr : build_results fn
        (extract_grouped_data pmInit cm0 fn pages).fibreData
        (extract_grouped_data pmInit cm0 fn pages).detected = [] := by
      unfold build_results
      refine List.filterMap_eq_nil.mpr (fun fc _ => ?_)
      dsimp only
      rcases hl : lookupA
          (extract_grouped_data pmInit cm0 fn pages).fibreData fc
          with _ | r0
      · rfl
      · have hr := hfd (fc, r0) (lookupA_mem hl)
        have hdtc : r0.dtc.any (fun pg => !pg.2.isEmpty) = false := by
          cases hany : r0.dtc.any (fun pg => !pg.2.isEmpty)
          · rfl
          · obtain ⟨e, hme, hpe⟩ := List.any_eq_true.mp hany
            rw [hr.2 e hme] at hpe
            cases hpe
        have hts : r0.ts = [] := hr.1
        simp [hts, hdtc]
    simp only
    rw [hbr]
    rfl
  · intro fn grouped detected r h
    unfold build_results at h
    rcases List.mem_filterMap.mp h with ⟨fc, _, hf⟩
    simp only at hf
    split at hf
    · rename_i hguard
      cases hf
      exact hguard
    · cases hf

/-- C9 witness: a one-page document with whitespace-only text and no
tables is rejected with the error response, and a concrete emitted record
has a non-empty text block. -/
theorem whitespace_only_documents_rejected_witness :
    extract_pdf pmInit [] "w.pdf" [⟨some "  \n ", []⟩]
      = ApiResult.errorNoData ∧
    ((⟨⟨"a.pdf", "24F", "2025-08-11", ["24F"]⟩,
        [("Page_1", [("H", "x")])], []⟩ : OutputRecord).technical_specifications.any
          (fun secp => !secp.2.isEmpty)
      || (⟨⟨"a.pdf", "24F", "2025-08-11", ["24F"]⟩,
        [("Page_1", [("H", "x")])], []⟩ : OutputRecord).document_content.any
          (fun pg => !pg.2.isEmpty)) = true :=
  ⟨whitespace_only_documents_rejected.1 [] "w.pdf" [⟨some "  \n ", []⟩]
      (fun p hp => by
        rw [List.mem_singleton.mp hp]
        exact ⟨rfl, fun t ht => by cases ht; decide⟩),
    whitespace_only_documents_rejected.2 "a.pdf"
      [("24F", ⟨[("Page_1", [("H", "x")])], []⟩)] ["24F"]
      ⟨⟨"a.pdf", "24F", "2025-08-11", ["24F"]⟩,
        [("Page_1", [("H", "x")])], []⟩ (by decide)⟩

end DocIntel
